import Mathlib

/-!
# Offline cache agent (`sw.js`) and form validation (`script.js`)

A shallow embedding of the three event handlers of the service worker
(`install`, `fetch`, `activate`) over an in-memory model of the hosting
runtime's cache store, and of `PortfolioApp.validateField`.

* The cache store is an ordered list of named generations, each an ordered
  list of entries keyed by URL (GET requests only; URLs are taken as already
  resolved, so `'/index.html'` and a request for that document share a key).
* A promise is a function from the world to its settlement and the world
  after it: a continuation is run to settlement at the point where the
  source creates the promise, so `World.calls` lists the host calls in the
  order in which the embedding runs them.
* What the host answers (network outcomes, rejected cache operations) is a
  parameter, `Host`.
-/

set_option autoImplicit false

namespace ServiceWorker

/-! ## Data model -/

abbrev Url := String
abbrev CacheName := String
abbrev JsError := String

/-- A response as far as the agent looks at it: its status and its body. -/
structure Response where
  status : Nat
  body : String
  deriving DecidableEq, Repr

/-- Copy of a response, as `Response.clone()` gives it: an independent response
with the same status and body. -/
def Response.clone (r : Response) : Response := { status := r.status, body := r.body }

/-- The fields of `event.request` that the handlers read. -/
structure Request where
  method : String
  url : Url
  mode : String
  deriving DecidableEq, Repr

/-- One cache generation: its entries, in insertion order. -/
abbrev Cache := List (Url × Response)

/-- The cache store (`caches`): the generations, in creation order. -/
abbrev CacheStorage := List (CacheName × Cache)

/-- Entry of one generation for a URL, as `cache.match` finds it. -/
def Cache.find (c : Cache) (u : Url) : Option Response := List.lookup u c

/-- Effect of `cache.put(u, r)` on one generation: an entry with the same key is
replaced. -/
def Cache.put (c : Cache) (u : Url) (r : Response) : Cache :=
  c.filter (fun e => e.1 != u) ++ [(u, r)]

/-- Names of the generations, as `caches.keys()` lists them. -/
def CacheStorage.keys (s : CacheStorage) : List CacheName := s.map Prod.fst

/-- Whether a generation of that name exists (`caches.has`). -/
def CacheStorage.has (s : CacheStorage) (n : CacheName) : Bool := s.any (fun g => g.1 == n)

/-- The generation of that name, when it exists. -/
def CacheStorage.generation (s : CacheStorage) (n : CacheName) : Option Cache := List.lookup n s

/-- Effect of `caches.open(n)`: the generation is created empty when absent. -/
def CacheStorage.openCache (s : CacheStorage) (n : CacheName) : CacheStorage :=
  if s.has n then s else s ++ [(n, [])]

/-- Result of `caches.match(u)`, the lookup on the store itself (not on one opened
generation): as the Cache API defines it, the entry of the first generation,
in creation order, that holds one for the URL. -/
def CacheStorage.find (s : CacheStorage) (u : Url) : Option Response :=
  s.findSome? (fun g => Cache.find g.2 u)

/-- Effect of `cache.put(u, r)` on the store, `cache` being the generation `n`. -/
def CacheStorage.putIn (s : CacheStorage) (n : CacheName) (u : Url) (r : Response) :
    CacheStorage :=
  s.map (fun g => if g.1 == n then (g.1, Cache.put g.2 u r) else g)

/-- Effect of `caches.delete(n)` on the store. -/
def CacheStorage.delete (s : CacheStorage) (n : CacheName) : CacheStorage :=
  s.filter (fun g => g.1 != n)

/-! ## World, host and promises -/

inductive Level where
  | log
  | warn
  | error
  deriving DecidableEq, Repr

/-- One console line: the level, the message and the value printed after it. -/
structure LogEntry where
  level : Level
  message : String
  detail : String
  deriving DecidableEq, Repr

/-- Calls into the hosting runtime. -/
inductive Effect where
  | cachesMatch (u : Url)
  | cachesOpen (n : CacheName)
  | cachesKeys
  | cachesDelete (n : CacheName)
  | cachePut (n : CacheName) (u : Url)
  | cacheAddAll (n : CacheName) (urls : List Url)
  | fetch (u : Url)
  | clientsClaim
  deriving DecidableEq, Repr

structure World where
  caches : CacheStorage
  console : List LogEntry
  calls : List Effect
  deriving DecidableEq, Repr

/-- What the hosting runtime answers: the outcome of a network fetch of a URL,
and for each cache-store operation the error it rejects with, if it does. -/
structure Host where
  network : Url → Except JsError Response
  matchFault : Url → Option JsError
  openFault : CacheName → Option JsError
  putFault : CacheName → Url → Option JsError
  keysFault : Option JsError
  deleteFault : CacheName → Option JsError

/-- How a promise settles. -/
inductive Settled (α : Type) where
  | fulfilled (value : α)
  | rejected (error : JsError)
  deriving DecidableEq, Repr

/-- A promise: run on a world, it settles and leaves a world. -/
abbrev Async (α : Type) := World → Settled α × World

namespace Async

variable {α β : Type}

def resolve (a : α) : Async α := fun w => (.fulfilled a, w)

def reject (e : JsError) : Async α := fun w => (.rejected e, w)

/-- The promise `p.then(f)`. -/
def thenDo (p : Async α) (f : α → Async β) : Async β := fun w =>
  match p w with
  | (.fulfilled a, w1) => f a w1
  | (.rejected e, w1) => (.rejected e, w1)

/-- The promise `p.catch(h)`. -/
def catchDo (p : Async α) (h : JsError → Async α) : Async α := fun w =>
  match p w with
  | (.fulfilled a, w1) => (.fulfilled a, w1)
  | (.rejected e, w1) => h e w1

/-- A statement followed by the rest of the callback. -/
def seq (p : Async Unit) (q : Async β) : Async β := thenDo p (fun _ => q)

/-- A promise that is created and neither returned nor chained: its work is
done, its settlement reaches nobody. -/
def detach (p : Async α) : Async Unit := fun w => (.fulfilled (), (p w).2)

/-- A promise of which only the settlement is used, not the value. -/
def void (p : Async α) : Async Unit := thenDo p (fun _ => resolve ())

/-- The promise `Promise.all(ps)`: every member runs; it rejects with the first
rejection in order, and is fulfilled with all the values otherwise. -/
def all : List (Async α) → Async (List α)
  | [] => resolve []
  | p :: ps => fun w =>
    match p w with
    | (.fulfilled a, w1) =>
      match all ps w1 with
      | (.fulfilled as, w2) => (.fulfilled (a :: as), w2)
      | (.rejected e, w2) => (.rejected e, w2)
    | (.rejected e, w1) => (.rejected e, (all ps w1).2)

end Async

open Async

/-! ## Host services -/

def call (e : Effect) (w : World) : World := { w with calls := w.calls ++ [e] }

def console (l : Level) (message detail : String) : Async Unit := fun w =>
  (.fulfilled (), { w with console := w.console ++ [⟨l, message, detail⟩] })

/-- The call `caches.match(u)`. -/
def cachesMatch (host : Host) (u : Url) : Async (Option Response) := fun w =>
  match host.matchFault u with
  | some e => (.rejected e, call (.cachesMatch u) w)
  | none => (.fulfilled (w.caches.find u), call (.cachesMatch u) w)

/-- The call `caches.open(n)`; the value is the handle of the generation. -/
def cachesOpen (host : Host) (n : CacheName) : Async CacheName := fun w =>
  match host.openFault n with
  | some e => (.rejected e, call (.cachesOpen n) w)
  | none => (.fulfilled n, { call (.cachesOpen n) w with caches := w.caches.openCache n })

/-- The call `cache.put(u, r)` on the generation `n`. -/
def cachePut (host : Host) (n : CacheName) (u : Url) (r : Response) : Async Unit := fun w =>
  match host.putFault n u with
  | some e => (.rejected e, call (.cachePut n u) w)
  | none => (.fulfilled (), { call (.cachePut n u) w with caches := w.caches.putIn n u r })

/-- The call `caches.keys()`. -/
def cachesKeys (host : Host) : Async (List CacheName) := fun w =>
  match host.keysFault with
  | some e => (.rejected e, call .cachesKeys w)
  | none => (.fulfilled w.caches.keys, call .cachesKeys w)

/-- The call `caches.delete(n)`; the value tells whether the generation existed. -/
def cachesDelete (host : Host) (n : CacheName) : Async Bool := fun w =>
  match host.deleteFault n with
  | some e => (.rejected e, call (.cachesDelete n) w)
  | none => (.fulfilled (w.caches.has n), { call (.cachesDelete n) w with caches := w.caches.delete n })

/-- The call `fetch(u)`. -/
def fetch (host : Host) (u : Url) : Async Response := fun w =>
  match host.network u with
  | .error e => (.rejected e, call (.fetch u) w)
  | .ok r => (.fulfilled r, call (.fetch u) w)

/-- The fetches of a batch, in order, up to the first that fails. -/
def fetchAll (host : Host) : List Url → Async (List (Url × Response))
  | [] => resolve []
  | u :: us =>
    thenDo (fetch host u) (fun r =>
      thenDo (fetchAll host us) (fun rs => resolve ((u, r) :: rs)))

/-- Whether `cache.addAll` accepts a response: an ok status other than 206. -/
def addable (r : Response) : Bool := 200 ≤ r.status && r.status ≤ 299 && r.status != 206

/-- The call `cache.addAll(urls)` on the generation `n`: every URL is fetched;
when a fetch fails, a response is not acceptable or a write is refused, the
call rejects and nothing is stored; otherwise every response is stored. -/
def cacheAddAll (host : Host) (n : CacheName) (urls : List Url) : Async Unit := fun w =>
  thenDo (fetchAll host urls) (fun rs =>
    if rs.all (fun p => addable p.2) then
      match urls.findSome? (host.putFault n) with
      | some e => reject e
      | none => fun w1 =>
        (.fulfilled (), { w1 with caches := rs.foldl (fun s p => s.putIn n p.1 p.2) w1.caches })
    else reject "TypeError: bad response status") (call (.cacheAddAll n urls) w)

/-! ## The agent -/

/-- The two constants of the agent: the name of the current generation and the
asset manifest. -/
structure Config where
  CACHE_NAME : CacheName
  urlsToCache : List Url

def CACHE_NAME : CacheName := "portfolio-v1.1"

def urlsToCache : List Url :=
  [ "/",
    "/index.html",
    "/styles.css",
    "/script.js",
    "/manifest.json",
    "https://fonts.googleapis.com/css2?family=Inter:wght@300;400;500;600;700&family=JetBrains+Mono:wght@400;500&display=swap",
    "https://cdnjs.cloudflare.com/ajax/libs/font-awesome/6.4.0/css/all.min.css" ]

/-- The agent as the source has it. -/
def deployed : Config := { CACHE_NAME := CACHE_NAME, urlsToCache := urlsToCache }

/-- Outcome of an `install` or `activate` event: how the promise handed to
`event.waitUntil` settled, and the world afterwards. -/
structure LifecycleOutcome where
  waitUntil : Settled Unit
  world : World
  deriving DecidableEq, Repr

/-- Outcome of a `fetch` event: how the promise handed to `event.respondWith`
settled (`none` when `respondWith` was not called; a fulfilled `none` is the
value `undefined`), and the world afterwards. -/
structure FetchOutcome where
  respondWith : Option (Settled (Option Response))
  world : World
  deriving DecidableEq, Repr

/-- The promise of the `install` handler. -/
def installTask (cfg : Config) (host : Host) : Async Unit :=
  catchDo
    (thenDo (cachesOpen host cfg.CACHE_NAME) (fun cache =>
      seq (console .log "SW: Cache opened successfully" "")
        (cacheAddAll host cache cfg.urlsToCache)))
    (fun error =>
      seq (console .error "SW: Failed to cache resources:" error)
        (reject error))

/-- The `install` event handler. -/
def onInstall (cfg : Config) (host : Host) (w : World) : LifecycleOutcome :=
  let r := installTask cfg host w
  { waitUntil := r.1, world := r.2 }

/-- The store of a copy of a network response (the statement that starts
`caches.open(CACHE_NAME)` in the `fetch` handler): the promise of
`cache.put` is not returned from the callback. -/
def storeCopy (cfg : Config) (host : Host) (request : Request) (responseClone : Response) :
    Async Unit :=
  catchDo
    (thenDo (cachesOpen host cfg.CACHE_NAME) (fun cache =>
      detach (cachePut host cache request.url responseClone)))
    (fun error => console .warn "SW: Failed to cache response:" error)

/-- The network branch of the `fetch` handler. -/
def fromNetwork (cfg : Config) (host : Host) (request : Request) : Async (Option Response) :=
  catchDo
    (thenDo (fetch host request.url) (fun networkResponse =>
      if networkResponse.status = 200 then
        seq (detach (storeCopy cfg host request networkResponse.clone))
          (resolve (some networkResponse))
      else resolve (some networkResponse)))
    (fun error =>
      seq (console .warn "SW: Network request failed:" error)
        (if request.mode = "navigate" then cachesMatch host "/index.html"
         else reject error))

/-- The promise that the `fetch` handler hands to `respondWith`. -/
def respondTask (cfg : Config) (host : Host) (request : Request) : Async (Option Response) :=
  catchDo
    (thenDo (cachesMatch host request.url) (fun response =>
      match response with
      | some cached => resolve (some cached)
      | none => fromNetwork cfg host request))
    (fun error =>
      seq (console .error "SW: Fetch event failed:" error)
        (reject error))

/-- The `fetch` event handler. -/
def onFetch (cfg : Config) (host : Host) (request : Request) (w : World) : FetchOutcome :=
  if request.method ≠ "GET" then { respondWith := none, world := w }
  else
    let r := respondTask cfg host request w
    { respondWith := some r.1, world := r.2 }

/-- The callback that the `activate` handler maps over the generation names:
the promise of the deletion for a name other than CACHE_NAME, `undefined`
(here `none`) for CACHE_NAME. -/
def cleanupOne (cfg : Config) (host : Host) (cacheName : CacheName) : Async (Option Bool) :=
  if cacheName ≠ cfg.CACHE_NAME then
    seq (console .log "SW: Deleting old cache:" cacheName)
      (thenDo (cachesDelete host cacheName) (fun deleted => resolve (some deleted)))
  else resolve none

/-- The promise of the `activate` handler. -/
def cleanupTask (cfg : Config) (host : Host) : Async Unit :=
  catchDo
    (thenDo (cachesKeys host) (fun cacheNames =>
      void (all (cacheNames.map (cleanupOne cfg host)))))
    (fun error => console .error "SW: Failed to clean up old caches:" error)

/-- The `activate` event handler. -/
def onActivate (cfg : Config) (host : Host) (w : World) : LifecycleOutcome :=
  let r := cleanupTask cfg host w
  { waitUntil := r.1, world := call .clientsClaim r.2 }

/-! ## Sample hosts and worlds -/

/-- A host on which no cache operation fails and every fetch fails (offline). -/
def offline : Host :=
  { network := fun _ => .error "TypeError: Failed to fetch"
    matchFault := fun _ => none
    openFault := fun _ => none
    putFault := fun _ _ => none
    keysFault := none
    deleteFault := fun _ => none }

/-- A host on which no cache operation fails and every fetch gives `r`. -/
def online (r : Response) : Host := { offline with network := fun _ => .ok r }

def page : Response := { status := 200, body := "<html>shell</html>" }

def sheet : Response := { status := 200, body := "body {}" }

def missing : Response := { status := 404, body := "Not Found" }

/-- A world whose store has the current generation only, holding the root
document. -/
def installed : World :=
  { caches := [("portfolio-v1.1", [("/index.html", page)])], console := [], calls := [] }

/-- A world whose store still has an older generation, which alone holds
`/old.css`. -/
def upgraded : World :=
  { caches := [("portfolio-v1.0", [("/old.css", sheet)]), ("portfolio-v1.1", [("/index.html", page)])]
    console := []
    calls := [] }

/-- A host, offline, on which every deletion of a generation is refused. -/
def stuck : Host := { offline with deleteFault := fun _ => some "UnknownError" }

/-- A world whose store has an older generation only. -/
def stale : World :=
  { caches := [("portfolio-v1.0", [("/old.css", sheet)])], console := [], calls := [] }

/-- A host, online with the stylesheet, on which every `cache.put` is refused. -/
def full : Host := { online sheet with putFault := fun _ _ => some "QuotaExceededError" }

/-- A host, online with the stylesheet, on which every `caches.open` is refused. -/
def sealed : Host := { online sheet with openFault := fun _ => some "QuotaExceededError" }

/-- A host, offline, on which `caches.keys()` is refused. -/
def blind : Host := { offline with keysFault := some "InvalidStateError" }

/-- The agent after a version bump: the same manifest under the name
`portfolio-v1.2`. -/
def bumped : Config := { CACHE_NAME := "portfolio-v1.2", urlsToCache := urlsToCache }

def fresh : Response := { status := 200, body := "<html>v1.2</html>" }

/-- A host, offline, on which the lookup of `/index.html` is refused and every
other lookup answers. -/
def jammed : Host :=
  { offline with matchFault := fun u => if u = "/index.html" then some "UnknownError" else none }

end ServiceWorker

/-! ## Form validation (`script.js`, `PortfolioApp.validateField`)

A string of the page is a Lean string; its `length` is counted in UTF-16 code
units, as the script counts it. -/

namespace PortfolioApp

/-- White space and line terminators: what `String.prototype.trim` strips and
what the class `\s` of a regular expression matches. -/
def isWhiteSpace (c : Char) : Bool :=
  c.toNat == 0x9 || c.toNat == 0xA || c.toNat == 0xB || c.toNat == 0xC || c.toNat == 0xD ||
  c.toNat == 0x20 || c.toNat == 0xA0 || c.toNat == 0x1680 ||
  (0x2000 ≤ c.toNat && c.toNat ≤ 0x200A) ||
  c.toNat == 0x2028 || c.toNat == 0x2029 || c.toNat == 0x202F || c.toNat == 0x205F ||
  c.toNat == 0x3000 || c.toNat == 0xFEFF

/-- The method `trim()`. -/
def trim (s : List Char) : List Char :=
  ((s.dropWhile isWhiteSpace).reverse.dropWhile isWhiteSpace).reverse

/-- The property `length`: the number of UTF-16 code units. -/
def length (s : List Char) : Nat :=
  (s.map (fun c => if c.toNat < 0x10000 then 1 else 2)).sum

/-- The class `[^\s@]`. -/
def plain (c : Char) : Bool := !isWhiteSpace c && c.toNat != 0x40

/-- The test of `/^[^\s@]+@[^\s@]+\.[^\s@]+$/`: the string splits as a run of
plain characters, `@`, a run of plain characters, `.`, a run of plain
characters, no run empty. -/
def emailPattern (s : List Char) : Bool :=
  (List.range s.length).any (fun i =>
    (List.range s.length).any (fun j =>
      decide (0 < i) && decide (i + 1 < j) && decide (j + 1 < s.length) &&
      (s.take i).all plain &&
      s.get? i == some (Char.ofNat 0x40) &&
      ((s.drop (i + 1)).take (j - (i + 1))).all plain &&
      s.get? j == some (Char.ofNat 0x2E) &&
      (s.drop (j + 1)).all plain))

/-- One entry of `validationRules`. -/
structure Rule where
  minLength : Option Nat
  pattern : Option (List Char → Bool)
  message : String

/-- The table `validationRules`, read at a field name. A name that the object
only inherits (`toString`, `constructor`, ...) gives a value with neither
`minLength` nor `pattern`, on which no check runs, as for a name without
entry. -/
def validationRules (fieldName : String) : Option Rule :=
  if fieldName = "name" then
    some { minLength := some 2, pattern := none,
           message := "Name must be at least 2 characters long" }
  else if fieldName = "email" then
    some { minLength := none, pattern := some emailPattern,
           message := "Please enter a valid email address" }
  else if fieldName = "subject" then
    some { minLength := some 5, pattern := none,
           message := "Subject must be at least 5 characters long" }
  else if fieldName = "message" then
    some { minLength := some 10, pattern := none,
           message := "Message must be at least 10 characters long" }
  else none

/-- The properties of the form field that `validateField` reads. -/
structure Field where
  value : String
  name : String
  deriving DecidableEq, Repr

/-- What `validateField` leaves: the value it returns, the message, whether the
field carries the class `error`, and the message handed to `showFieldError`. -/
structure Validation where
  isValid : Bool
  errorMessage : String
  errorClass : Bool
  shown : Option String
  deriving DecidableEq, Repr

/-- The verdict and the message of `validateField`. -/
def check (field : Field) : Bool × String :=
  let value := trim field.value.toList
  let fieldName := field.name
  if value.isEmpty then (false, "This field is required")
  else
    match validationRules fieldName with
    | some rule =>
      if rule.minLength.any (fun m => m != 0 && decide (length value < m)) then
        (false, rule.message)
      else if rule.pattern.any (fun p => !p value) then (false, rule.message)
      else (true, "")
    | none => (true, "")

/-- The method `validateField(field)`. -/
def validateField (field : Field) : Validation :=
  let r := check field
  { isValid := r.1
    errorMessage := r.2
    errorClass := !r.1
    shown := if r.1 then none else some r.2 }

end PortfolioApp

namespace ServiceWorker

open Async

/-! ## Lemmas on the cache store -/

theorem Cache.find_put_same (c : Cache) (u : Url) (r : Response) :
    Cache.find (Cache.put c u r) u = some r := by
  unfold Cache.find Cache.put
  induction c with
  | nil => simp [List.lookup]
  | cons e es ih =>
    rcases e with ⟨v, x⟩
    by_cases h : v = u
    · subst h
      simpa [List.filter_cons] using ih
    · have h2 : (u == v) = false := by simpa using fun h3 => h h3.symm
      have h4 : (v != u) = true := by simpa using h
      simpa [List.filter_cons, h4, List.lookup, h2] using ih

theorem CacheStorage.generation_openCache (s : CacheStorage) (n : CacheName) :
    ∃ c, (s.openCache n).generation n = some c := by
  unfold CacheStorage.openCache CacheStorage.generation CacheStorage.has
  induction s with
  | nil => simp [List.lookup]
  | cons g gs ih =>
    rcases g with ⟨m, c0⟩
    by_cases h : m = n
    · exact ⟨c0, by simp [h, List.lookup]⟩
    · have h2 : (n == m) = false := by simpa using fun h3 => h h3.symm
      obtain ⟨c, hc⟩ := ih
      refine ⟨c, ?_⟩
      by_cases hany : gs.any (fun g => g.1 == n) = true
      · simpa [h, hany, List.lookup, h2] using hc
      · simpa [h, hany, List.lookup, h2] using hc

theorem CacheStorage.generation_putIn (s : CacheStorage) (n : CacheName) (u : Url)
    (r : Response) (c : Cache) (h : s.generation n = some c) :
    (s.putIn n u r).generation n = some (Cache.put c u r) := by
  unfold CacheStorage.putIn CacheStorage.generation at *
  induction s with
  | nil => simp [List.lookup] at h
  | cons g gs ih =>
    rcases g with ⟨m, c0⟩
    by_cases hg : m = n
    · subst hg
      simp [List.lookup] at h
      subst h
      simp only [List.map_cons]
      rw [if_pos (by simp)]
      simp [List.lookup]
    · have h2 : (n == m) = false := by simpa using fun h3 => hg h3.symm
      simp only [List.lookup, h2] at h
      have h5 := ih h
      simp only [List.map_cons]
      rw [if_neg (by simpa using hg)]
      simpa [List.lookup, h2] using h5

/-- C1: a GET request whose cache lookup finds an entry is answered with exactly
that entry; the only host call is the lookup (no network fetch), and the store
is left as it was. -/
theorem fetch_hit_serves_cached (cfg : Config) (host : Host) (request : Request) (w : World)
    (cached : Response)
    (hget : request.method = "GET")
    (hlookup : host.matchFault request.url = none)
    (hhit : w.caches.find request.url = some cached) :
    (onFetch cfg host request w).respondWith = some (.fulfilled (some cached)) ∧
    (onFetch cfg host request w).world.calls = w.calls ++ [Effect.cachesMatch request.url] ∧
    (∀ u, Effect.fetch u ∈ (onFetch cfg host request w).world.calls → Effect.fetch u ∈ w.calls) ∧
    (onFetch cfg host request w).world.caches = w.caches := by
  simp [onFetch, respondTask, catchDo, thenDo, cachesMatch, resolve, call, hget, hlookup, hhit]

theorem fetch_hit_serves_cached_witness :
    (⟨"GET", "/index.html", "navigate"⟩ : Request).method = "GET" ∧
    offline.matchFault "/index.html" = none ∧
    installed.caches.find "/index.html" = some page ∧
    (onFetch deployed offline ⟨"GET", "/index.html", "navigate"⟩ installed).respondWith
      = some (.fulfilled (some page)) ∧
    (onFetch deployed offline ⟨"GET", "/index.html", "navigate"⟩ installed).world.calls
      = [Effect.cachesMatch "/index.html"] :=
  have h := fetch_hit_serves_cached deployed offline ⟨"GET", "/index.html", "navigate"⟩ installed
    page rfl rfl (by decide)
  ⟨rfl, rfl, by decide, h.1, h.2.1⟩

/-- C2: a GET request that misses the cache and whose network fetch gives a 200
response is answered with that network response, and when the store of the
copy goes through (the open and the put are not refused) the generation
CACHE_NAME holds, under the URL of the request, a copy of it with the same
status and body. -/
theorem fetch_miss_ok_stores_copy (cfg : Config) (host : Host) (request : Request) (w : World)
    (networkResponse : Response)
    (hget : request.method = "GET")
    (hlookup : host.matchFault request.url = none)
    (hmiss : w.caches.find request.url = none)
    (hnet : host.network request.url = .ok networkResponse)
    (hok : networkResponse.status = 200)
    (hopen : host.openFault cfg.CACHE_NAME = none)
    (hput : host.putFault cfg.CACHE_NAME request.url = none) :
    (onFetch cfg host request w).respondWith = some (.fulfilled (some networkResponse)) ∧
    ∃ c copy, (onFetch cfg host request w).world.caches.generation cfg.CACHE_NAME = some c ∧
      Cache.find c request.url = some copy ∧
      copy.status = networkResponse.status ∧ copy.body = networkResponse.body := by
  obtain ⟨c0, hc0⟩ := CacheStorage.generation_openCache w.caches cfg.CACHE_NAME
  refine ⟨?_, Cache.put c0 request.url networkResponse.clone, networkResponse.clone, ?_, ?_, rfl, rfl⟩
  · simp [onFetch, respondTask, fromNetwork, storeCopy, catchDo, thenDo, seq, detach,
      cachesMatch, fetch, resolve, call, hget, hlookup, hmiss, hnet, hok]
  · have h := CacheStorage.generation_putIn _ _ request.url networkResponse.clone c0 hc0
    simpa [onFetch, respondTask, fromNetwork, storeCopy, catchDo, thenDo, seq, detach,
      cachesMatch, cachesOpen, cachePut, fetch, resolve, call, hget, hlookup, hmiss, hnet, hok,
      hopen, hput] using h
  · exact Cache.find_put_same _ _ _

theorem fetch_miss_ok_stores_copy_witness :
    (⟨"GET", "/styles.css", "no-cors"⟩ : Request).method = "GET" ∧
    installed.caches.find "/styles.css" = none ∧
    (online sheet).network "/styles.css" = .ok sheet ∧
    sheet.status = 200 ∧
    (onFetch deployed (online sheet) ⟨"GET", "/styles.css", "no-cors"⟩ installed).respondWith
      = some (.fulfilled (some sheet)) ∧
    ∃ c copy,
      (onFetch deployed (online sheet) ⟨"GET", "/styles.css", "no-cors"⟩ installed).world.caches.generation
        deployed.CACHE_NAME = some c ∧
      Cache.find c "/styles.css" = some copy ∧ copy.status = sheet.status ∧ copy.body = sheet.body :=
  have h := fetch_miss_ok_stores_copy deployed (online sheet) ⟨"GET", "/styles.css", "no-cors"⟩
    installed sheet rfl rfl (by decide) rfl rfl rfl rfl
  ⟨rfl, by decide, rfl, rfl, h.1, h.2⟩

/-- C3: a GET request that misses the cache and whose network fetch gives a
response with a status other than 200 is answered with that response, and the
whole cache store is afterwards what it was before. -/
theorem fetch_miss_other_status_not_cached (cfg : Config) (host : Host) (request : Request)
    (w : World) (networkResponse : Response)
    (hget : request.method = "GET")
    (hlookup : host.matchFault request.url = none)
    (hmiss : w.caches.find request.url = none)
    (hnet : host.network request.url = .ok networkResponse)
    (hstatus : networkResponse.status ≠ 200) :
    (onFetch cfg host request w).respondWith = some (.fulfilled (some networkResponse)) ∧
    (onFetch cfg host request w).world.caches = w.caches := by
  simp [onFetch, respondTask, fromNetwork, catchDo, thenDo, cachesMatch, fetch, resolve, call,
    hget, hlookup, hmiss, hnet, hstatus]

theorem fetch_miss_other_status_not_cached_witness :
    (⟨"GET", "/nowhere", "navigate"⟩ : Request).method = "GET" ∧
    installed.caches.find "/nowhere" = none ∧
    missing.status ≠ 200 ∧
    (onFetch deployed (online missing) ⟨"GET", "/nowhere", "navigate"⟩ installed).respondWith
      = some (.fulfilled (some missing)) ∧
    (onFetch deployed (online missing) ⟨"GET", "/nowhere", "navigate"⟩ installed).world.caches
      = installed.caches :=
  have h := fetch_miss_other_status_not_cached deployed (online missing)
    ⟨"GET", "/nowhere", "navigate"⟩ installed missing rfl rfl (by decide) rfl (by decide)
  ⟨rfl, by decide, by decide, h.1, h.2⟩

/-- C4: for a request whose method is not GET the fetch handler does not call
respondWith and leaves the world as it was: no cache lookup, no cache write,
no fetch, no console line. -/
theorem fetch_other_method_passes_through (cfg : Config) (host : Host) (request : Request)
    (w : World) (hmethod : request.method ≠ "GET") :
    (onFetch cfg host request w).respondWith = none ∧
    (onFetch cfg host request w).world = w := by
  simp [onFetch, hmethod]

theorem fetch_other_method_passes_through_witness :
    (⟨"POST", "/index.html", "cors"⟩ : Request).method ≠ "GET" ∧
    (onFetch deployed offline ⟨"POST", "/index.html", "cors"⟩ installed).respondWith = none ∧
    (onFetch deployed offline ⟨"POST", "/index.html", "cors"⟩ installed).world = installed :=
  have h := fetch_other_method_passes_through deployed offline ⟨"POST", "/index.html", "cors"⟩
    installed (by decide)
  ⟨by decide, h.1, h.2⟩

/-- C6, as amended: a GET navigation request that misses the cache and whose
network fetch rejects is answered, whatever its URL, with the cached root
document, provided the lookup of /index.html answers and a generation holds
it: the handler is then fulfilled with the entry that the store holds for
/index.html. -/
theorem fetch_offline_navigation_falls_back (cfg : Config) (host : Host) (request : Request)
    (w : World) (e : JsError) (root : Response)
    (hget : request.method = "GET")
    (hnav : request.mode = "navigate")
    (hlookup : host.matchFault request.url = none)
    (hmiss : w.caches.find request.url = none)
    (hnet : host.network request.url = .error e)
    (hrootLookup : host.matchFault "/index.html" = none)
    (hroot : w.caches.find "/index.html" = some root) :
    (onFetch cfg host request w).respondWith = some (.fulfilled (some root)) := by
  simp [onFetch, respondTask, fromNetwork, catchDo, thenDo, seq, cachesMatch, fetch, resolve,
    console, call, hget, hnav, hlookup, hmiss, hnet, hrootLookup, hroot]

theorem fetch_offline_navigation_falls_back_witness :
    (⟨"GET", "/about", "navigate"⟩ : Request).method = "GET" ∧
    (⟨"GET", "/about", "navigate"⟩ : Request).mode = "navigate" ∧
    installed.caches.find "/about" = none ∧
    offline.network "/about" = .error "TypeError: Failed to fetch" ∧
    installed.caches.find "/index.html" = some page ∧
    (onFetch deployed offline ⟨"GET", "/about", "navigate"⟩ installed).respondWith
      = some (.fulfilled (some page)) :=
  ⟨rfl, rfl, by decide, rfl, by decide,
    fetch_offline_navigation_falls_back deployed offline ⟨"GET", "/about", "navigate"⟩ installed
      "TypeError: Failed to fetch" page rfl rfl rfl (by decide) rfl rfl (by decide)⟩

/-- A rejected lookup of the root document in the fallback makes the handler
log the error and reject with it. -/
theorem fetch_fallback_lookup_failure_rejects (cfg : Config) (host : Host) (request : Request)
    (w : World) (e e2 : JsError)
    (hget : request.method = "GET")
    (hnav : request.mode = "navigate")
    (hlookup : host.matchFault request.url = none)
    (hmiss : w.caches.find request.url = none)
    (hnet : host.network request.url = .error e)
    (hrootLookup : host.matchFault "/index.html" = some e2) :
    (onFetch cfg host request w).respondWith = some (.rejected e2) ∧
    (onFetch cfg host request w).world.console
      = w.console ++ [⟨.warn, "SW: Network request failed:", e⟩,
          ⟨.error, "SW: Fetch event failed:", e2⟩] := by
  simp [onFetch, respondTask, fromNetwork, catchDo, thenDo, seq, cachesMatch, fetch, reject,
    console, call, hget, hnav, hlookup, hmiss, hnet, hrootLookup]

/-- C6 as stated fails: offline, a navigation request for /about that misses the
cache. On a store that holds the root document, with the lookup of
/index.html refused, the handler fails: it rejects with the error of that
lookup. On a store in which no generation holds /index.html the handler
resolves, but with undefined: there is no cached root document to answer
with. -/
theorem fetch_offline_navigation_not_always_root :
    installed.caches.find "/about" = none ∧
    installed.caches.find "/index.html" = some page ∧
    jammed.matchFault "/about" = none ∧
    jammed.matchFault "/index.html" = some "UnknownError" ∧
    (onFetch deployed jammed ⟨"GET", "/about", "navigate"⟩ installed).respondWith
      = some (.rejected "UnknownError") ∧
    stale.caches.find "/about" = none ∧
    stale.caches.find "/index.html" = none ∧
    (onFetch deployed offline ⟨"GET", "/about", "navigate"⟩ stale).respondWith
      = some (.fulfilled none) :=
  ⟨by decide, by decide, by decide, by decide, by decide, by decide, by decide, by decide⟩

/-- C7: a GET request that misses the cache, whose network fetch rejects with
the error e and whose mode is not navigate makes the handler reject with e
itself: the promise handed to respondWith carries no response. -/
theorem fetch_offline_other_mode_rejects (cfg : Config) (host : Host) (request : Request)
    (w : World) (e : JsError)
    (hget : request.method = "GET")
    (hmode : request.mode ≠ "navigate")
    (hlookup : host.matchFault request.url = none)
    (hmiss : w.caches.find request.url = none)
    (hnet : host.network request.url = .error e) :
    (onFetch cfg host request w).respondWith = some (.rejected e) := by
  simp [onFetch, respondTask, fromNetwork, catchDo, thenDo, seq, cachesMatch, fetch, reject,
    console, call, hget, hmode, hlookup, hmiss, hnet]

theorem fetch_offline_other_mode_rejects_witness :
    (⟨"GET", "/photo.png", "no-cors"⟩ : Request).method = "GET" ∧
    (⟨"GET", "/photo.png", "no-cors"⟩ : Request).mode ≠ "navigate" ∧
    installed.caches.find "/photo.png" = none ∧
    offline.network "/photo.png" = .error "TypeError: Failed to fetch" ∧
    (onFetch deployed offline ⟨"GET", "/photo.png", "no-cors"⟩ installed).respondWith
      = some (.rejected "TypeError: Failed to fetch") :=
  ⟨rfl, by decide, by decide, rfl,
    fetch_offline_other_mode_rejects deployed offline ⟨"GET", "/photo.png", "no-cors"⟩ installed
      "TypeError: Failed to fetch" rfl (by decide) rfl (by decide) rfl⟩



/-! ## Activation -/

theorem Async.all_cons_world {α : Type} (p : Async α) (ps : List (Async α)) (w : World) :
    (all (p :: ps) w).2 = (all ps (p w).2).2 := by
  rcases hp : p w with ⟨s, w1⟩
  cases s with
  | fulfilled a =>
    rcases hq : all ps w1 with ⟨t, w2⟩
    cases t <;> simp [all, hp, hq]
  | rejected e => simp [all, hp]

theorem Async.all_cons_fulfilled {α : Type} (p : Async α) (ps : List (Async α)) (w : World)
    (a : α) (as : List α) (hp : (p w).1 = .fulfilled a)
    (hps : (all ps (p w).2).1 = .fulfilled as) :
    (all (p :: ps) w).1 = .fulfilled (a :: as) := by
  rcases hpw : p w with ⟨s, w1⟩
  rw [hpw] at hp hps
  simp only at hp hps
  subst hp
  rcases hq : all ps w1 with ⟨t, w2⟩
  rw [hq] at hps
  simp only at hps
  subst hps
  simp [all, hpw, hq]

theorem cleanupOne_current (cfg : Config) (host : Host) (w : World) :
    cleanupOne cfg host cfg.CACHE_NAME w = (.fulfilled none, w) := by
  simp [cleanupOne, resolve]

theorem cleanupOne_stale (cfg : Config) (host : Host) (n : CacheName) (w : World)
    (hn : n ≠ cfg.CACHE_NAME) (hdel : host.deleteFault n = none) :
    (cleanupOne cfg host n w).1 = .fulfilled (some (w.caches.has n)) ∧
    (cleanupOne cfg host n w).2.caches = w.caches.delete n := by
  simp [cleanupOne, hn, seq, thenDo, console, cachesDelete, hdel, resolve, call]

theorem cleanup_batch_deletes (cfg : Config) (host : Host) (names : List CacheName) :
    ∀ w : World,
    (∀ n ∈ names, n ≠ cfg.CACHE_NAME → host.deleteFault n = none) →
    (∃ vs, (all (names.map (cleanupOne cfg host)) w).1 = .fulfilled vs) ∧
    (all (names.map (cleanupOne cfg host)) w).2.caches
      = w.caches.filter (fun g => g.1 == cfg.CACHE_NAME || !names.contains g.1) := by
  induction names with
  | nil => intro w _; simp [all, resolve]
  | cons n ns ih =>
    intro w h
    have hns : ∀ m ∈ ns, m ≠ cfg.CACHE_NAME → host.deleteFault m = none :=
      fun m hm => h m (List.mem_cons_of_mem _ hm)
    by_cases hn : n = cfg.CACHE_NAME
    · subst hn
      obtain ⟨⟨vs, hvs⟩, hc⟩ := ih w hns
      have hone := cleanupOne_current cfg host w
      refine ⟨⟨none :: vs, ?_⟩, ?_⟩
      · rw [List.map_cons]
        apply Async.all_cons_fulfilled
        · rw [hone]
        · rw [hone]; exact hvs
      · rw [List.map_cons, Async.all_cons_world, hone, hc]
        apply List.filter_congr
        intro g _
        by_cases hg : g.1 = cfg.CACHE_NAME <;> simp [hg]
    · obtain ⟨h1, h2⟩ := cleanupOne_stale cfg host n w hn (h n (List.mem_cons_self _ _) hn)
      obtain ⟨⟨vs, hvs⟩, hc⟩ := ih (cleanupOne cfg host n w).2 hns
      refine ⟨⟨some (w.caches.has n) :: vs, ?_⟩, ?_⟩
      · rw [List.map_cons]
        exact Async.all_cons_fulfilled _ _ _ _ _ h1 hvs
      · rw [List.map_cons, Async.all_cons_world, hc, h2, CacheStorage.delete, List.filter_filter]
        apply List.filter_congr
        intro g _
        by_cases hg : g.1 = cfg.CACHE_NAME
        · have : g.1 ≠ n := fun h3 => hn (h3 ▸ hg)
          simp [hg, this]
          intro h4; exact absurd h4.symm hn
        · by_cases hgn : g.1 = n <;> simp [hg, hgn, hn]

theorem activate_world_caches (cfg : Config) (host : Host) (w : World)
    (hkeys : host.keysFault = none)
    (hdelete : ∀ n ∈ w.caches.keys, n ≠ cfg.CACHE_NAME → host.deleteFault n = none) :
    (onActivate cfg host w).waitUntil = .fulfilled () ∧
    (onActivate cfg host w).world.caches = w.caches.filter (fun g => g.1 == cfg.CACHE_NAME) := by
  obtain ⟨⟨vs, hvs⟩, hc⟩ := cleanup_batch_deletes cfg host w.caches.keys (call .cachesKeys w) hdelete
  rcases hall : all (w.caches.keys.map (cleanupOne cfg host)) (call .cachesKeys w) with ⟨s, w1⟩
  rw [hall] at hvs hc
  simp only at hvs hc
  subst hvs
  have hfilter : w.caches.filter (fun g => g.1 == cfg.CACHE_NAME || !w.caches.keys.contains g.1)
      = w.caches.filter (fun g => g.1 == cfg.CACHE_NAME) := by
    apply List.filter_congr
    intro g hg
    have : g.1 ∈ w.caches.keys := List.mem_map_of_mem Prod.fst hg
    simp [this]
  have hrun : cleanupTask cfg host w = (.fulfilled (), w1) := by
    simp only [cleanupTask, catchDo, thenDo, void, cachesKeys, hkeys, hall, resolve]
  have hw1 : w1.caches = w.caches.filter (fun g => g.1 == cfg.CACHE_NAME) := by
    rw [hc]; simpa [call] using hfilter
  simp [onActivate, hrun, call, hw1]

theorem CacheStorage.keys_filter_current (s : CacheStorage) (v : CacheName)
    (hnodup : s.keys.Nodup) (hv : v ∈ s.keys) :
    CacheStorage.keys (s.filter (fun g => g.1 == v)) = [v] := by
  induction s with
  | nil => simp [CacheStorage.keys] at hv
  | cons g gs ih =>
    rcases g with ⟨m, c⟩
    simp only [CacheStorage.keys, List.map_cons, List.nodup_cons, List.mem_cons] at hnodup hv
    by_cases hm : m = v
    · subst hm
      have hnone : gs.filter (fun g => g.1 == m) = [] := by
        rw [List.filter_eq_nil_iff]
        intro g hg hgm
        have : g.1 = m := by simpa using hgm
        exact hnodup.1 (this ▸ List.mem_map_of_mem Prod.fst hg)
      simp [List.filter_cons, hnone, CacheStorage.keys]
    · have hv2 : v ∈ CacheStorage.keys gs := by
        rcases hv with h | h
        · exact absurd h.symm hm
        · exact h
      have := ih hnodup.2 hv2
      simpa [List.filter_cons, hm] using this

/-- C5, as amended: when keys() and every deletion that the activate handler
asks for succeed, the store afterwards is the store before without the
generations named differently from CACHE_NAME; so when the generation
CACHE_NAME existed before (as after a successful install), keys() then lists
CACHE_NAME and nothing else, and that generation has kept its entries. -/
theorem activate_leaves_current_only (cfg : Config) (host : Host) (w : World)
    (hkeys : host.keysFault = none)
    (hdelete : ∀ n ∈ w.caches.keys, n ≠ cfg.CACHE_NAME → host.deleteFault n = none)
    (hcurrent : cfg.CACHE_NAME ∈ w.caches.keys) :
    (onActivate cfg host w).world.caches = w.caches.filter (fun g => g.1 == cfg.CACHE_NAME) ∧
    (∀ n, n ∈ (onActivate cfg host w).world.caches.keys ↔ n = cfg.CACHE_NAME) ∧
    (w.caches.keys.Nodup → (onActivate cfg host w).world.caches.keys = [cfg.CACHE_NAME]) := by
  have h := (activate_world_caches cfg host w hkeys hdelete).2
  refine ⟨h, ?_, ?_⟩
  · intro n
    rw [h]
    simp only [CacheStorage.keys, List.mem_map, List.mem_filter, beq_iff_eq]
    constructor
    · rintro ⟨g, ⟨_, hg⟩, rfl⟩
      exact hg
    · rintro rfl
      simp only [CacheStorage.keys, List.mem_map] at hcurrent
      obtain ⟨g, hg, hgn⟩ := hcurrent
      exact ⟨g, ⟨hg, hgn⟩, hgn⟩
  · intro hnodup
    rw [h]
    exact CacheStorage.keys_filter_current _ _ hnodup hcurrent

theorem activate_leaves_current_only_witness :
    offline.keysFault = none ∧
    deployed.CACHE_NAME ∈ upgraded.caches.keys ∧
    upgraded.caches.keys = ["portfolio-v1.0", "portfolio-v1.1"] ∧
    (onActivate deployed offline upgraded).world.caches
      = upgraded.caches.filter (fun g => g.1 == deployed.CACHE_NAME) ∧
    (∀ n, n ∈ (onActivate deployed offline upgraded).world.caches.keys ↔ n = deployed.CACHE_NAME) ∧
    (upgraded.caches.keys.Nodup →
      (onActivate deployed offline upgraded).world.caches.keys = [deployed.CACHE_NAME]) :=
  ⟨rfl, by decide, by decide,
    activate_leaves_current_only deployed offline upgraded rfl (fun _ _ _ => rfl) (by decide)⟩

/-- C5 as stated fails: when a deletion is refused the older generation is still
listed after the cleanup has settled, and when the generation CACHE_NAME did
not exist before the activation nothing creates it, so keys() is empty. -/
theorem activate_keys_not_always_current :
    (onActivate deployed stuck upgraded).waitUntil = .fulfilled () ∧
    (onActivate deployed stuck upgraded).world.caches.keys = ["portfolio-v1.0", "portfolio-v1.1"] ∧
    (onActivate deployed stuck upgraded).world.caches.keys ≠ [deployed.CACHE_NAME] ∧
    (onActivate deployed offline stale).waitUntil = .fulfilled () ∧
    (onActivate deployed offline stale).world.caches.keys = [] ∧
    (onActivate deployed offline stale).world.caches.keys ≠ [deployed.CACHE_NAME] := by
  decide



/-! ## Installation -/

theorem fetchAll_settlement (host : Host) (urls : List Url) :
    ∀ w w2 : World, (fetchAll host urls w).1 = (fetchAll host urls w2).1 := by
  induction urls with
  | nil => intro w w2; rfl
  | cons u us ih =>
    intro w w2
    cases hnet : host.network u with
    | error e => simp [fetchAll, thenDo, fetch, hnet]
    | ok r =>
      have h := ih (call (.fetch u) w) (call (.fetch u) w2)
      rcases h1 : fetchAll host us (call (.fetch u) w) with ⟨s1, v1⟩
      rcases h2 : fetchAll host us (call (.fetch u) w2) with ⟨s2, v2⟩
      rw [h1, h2] at h
      simp only at h
      subst h
      cases s1 <;> simp [fetchAll, thenDo, fetch, hnet, h1, h2, resolve]

theorem cacheAddAll_settlement (host : Host) (n : CacheName) (urls : List Url) (w w2 : World) :
    (cacheAddAll host n urls w).1 = (cacheAddAll host n urls w2).1 := by
  have h := fetchAll_settlement host urls (call (.cacheAddAll n urls) w)
    (call (.cacheAddAll n urls) w2)
  rcases h1 : fetchAll host urls (call (.cacheAddAll n urls) w) with ⟨s1, v1⟩
  rcases h2 : fetchAll host urls (call (.cacheAddAll n urls) w2) with ⟨s2, v2⟩
  rw [h1, h2] at h
  simp only at h
  subst h
  cases s1 with
  | rejected e => simp [cacheAddAll, thenDo, h1, h2]
  | fulfilled rs =>
    simp only [cacheAddAll, thenDo, h1, h2]
    split
    · cases List.findSome? (host.putFault n) urls <;> simp [reject]
    · simp [reject]

theorem fetchAll_unfetchable (host : Host) (urls : List Url) :
    ∀ w : World, (∃ u ∈ urls, ∃ e, host.network u = .error e) →
    ∃ u ∈ urls, ∃ e, host.network u = .error e ∧ (fetchAll host urls w).1 = .rejected e := by
  induction urls with
  | nil => intro w h; simp at h
  | cons u us ih =>
    intro w h
    cases hnet : host.network u with
    | error e =>
      exact ⟨u, List.mem_cons_self _ _, e, hnet, by simp [fetchAll, thenDo, fetch, hnet]⟩
    | ok r =>
      have hrest : ∃ v ∈ us, ∃ e, host.network v = .error e := by
        obtain ⟨v, hv, e, he⟩ := h
        rcases List.mem_cons.1 hv with rfl | hv
        · rw [hnet] at he; cases he
        · exact ⟨v, hv, e, he⟩
      obtain ⟨v, hv, e, he, hrej⟩ := ih (call (.fetch u) w) hrest
      refine ⟨v, List.mem_cons_of_mem _ hv, e, he, ?_⟩
      rcases h1 : fetchAll host us (call (.fetch u) w) with ⟨s1, v1⟩
      rw [h1] at hrej
      simp only at hrej
      subst hrej
      simp [fetchAll, thenDo, fetch, hnet, h1]

theorem cacheAddAll_unfetchable (host : Host) (n : CacheName) (urls : List Url) (w : World)
    (h : ∃ u ∈ urls, ∃ e, host.network u = .error e) :
    ∃ u ∈ urls, ∃ e, host.network u = .error e ∧ (cacheAddAll host n urls w).1 = .rejected e := by
  obtain ⟨u, hu, e, he, hrej⟩ := fetchAll_unfetchable host urls (call (.cacheAddAll n urls) w) h
  refine ⟨u, hu, e, he, ?_⟩
  rcases h1 : fetchAll host urls (call (.cacheAddAll n urls) w) with ⟨s1, v1⟩
  rw [h1] at hrej
  simp only at hrej
  subst hrej
  simp [cacheAddAll, thenDo, h1]

theorem install_settlement (cfg : Config) (host : Host) (w : World) :
    (onInstall cfg host w).waitUntil =
      match host.openFault cfg.CACHE_NAME with
      | some e => .rejected e
      | none => (cacheAddAll host cfg.CACHE_NAME cfg.urlsToCache w).1 := by
  cases hopen : host.openFault cfg.CACHE_NAME with
  | some e =>
    simp [onInstall, installTask, catchDo, thenDo, seq, cachesOpen, hopen, console, reject]
  | none =>
    have h := cacheAddAll_settlement host cfg.CACHE_NAME cfg.urlsToCache w
      ({ caches := w.caches.openCache cfg.CACHE_NAME
         console := w.console ++ [⟨.log, "SW: Cache opened successfully", ""⟩]
         calls := w.calls ++ [.cachesOpen cfg.CACHE_NAME] } : World)
    simp only [h]
    rcases h1 : cacheAddAll host cfg.CACHE_NAME cfg.urlsToCache
      ({ caches := w.caches.openCache cfg.CACHE_NAME
         console := w.console ++ [⟨.log, "SW: Cache opened successfully", ""⟩]
         calls := w.calls ++ [.cachesOpen cfg.CACHE_NAME] } : World) with ⟨s1, v1⟩
    cases s1 <;>
      simp [onInstall, installTask, catchDo, thenDo, seq, cachesOpen, hopen, console, reject,
        call, h1]

/-- C8: the promise that the install handler hands to waitUntil rejects with e
exactly when opening the generation CACHE_NAME rejects with e, or the
generation opens and adding the manifest batch rejects with e; it is fulfilled
exactly when both succeed; and when the generation opens and some manifest
URL cannot be fetched, it rejects with the fetch error of a manifest URL. -/
theorem install_fails_iff (cfg : Config) (host : Host) (w : World) :
    (∀ e, (onInstall cfg host w).waitUntil = .rejected e ↔
      ((cachesOpen host cfg.CACHE_NAME w).1 = .rejected e ∨
        ((cachesOpen host cfg.CACHE_NAME w).1 = .fulfilled cfg.CACHE_NAME ∧
          (cacheAddAll host cfg.CACHE_NAME cfg.urlsToCache w).1 = .rejected e))) ∧
    ((onInstall cfg host w).waitUntil = .fulfilled () ↔
      ((cachesOpen host cfg.CACHE_NAME w).1 = .fulfilled cfg.CACHE_NAME ∧
        (cacheAddAll host cfg.CACHE_NAME cfg.urlsToCache w).1 = .fulfilled ())) ∧
    ((cachesOpen host cfg.CACHE_NAME w).1 = .fulfilled cfg.CACHE_NAME →
      (∃ u ∈ cfg.urlsToCache, ∃ e, host.network u = .error e) →
      ∃ u ∈ cfg.urlsToCache, ∃ e, host.network u = .error e ∧
        (onInstall cfg host w).waitUntil = .rejected e) := by
  have hrun := install_settlement cfg host w
  cases hopen : host.openFault cfg.CACHE_NAME with
  | some e0 =>
    rw [hopen] at hrun
    simp only at hrun
    refine ⟨fun e => ?_, ?_, ?_⟩ <;> simp [hrun, cachesOpen, hopen]
  | none =>
    rw [hopen] at hrun
    simp only at hrun
    refine ⟨fun e => ?_, ?_, ?_⟩
    · simp [hrun, cachesOpen, hopen]
    · simp [hrun, cachesOpen, hopen]
    · intro _ hbad
      rw [hrun]
      exact cacheAddAll_unfetchable host cfg.CACHE_NAME cfg.urlsToCache w hbad

theorem install_fails_iff_witness :
    (cachesOpen offline deployed.CACHE_NAME installed).1 = .fulfilled deployed.CACHE_NAME ∧
    (cacheAddAll offline deployed.CACHE_NAME deployed.urlsToCache installed).1
      = .rejected "TypeError: Failed to fetch" ∧
    (onInstall deployed offline installed).waitUntil = .rejected "TypeError: Failed to fetch" :=
  ⟨by decide, by decide,
    ((install_fails_iff deployed offline installed).1 "TypeError: Failed to fetch").2
      (Or.inr ⟨by decide, by decide⟩)⟩

/-! ## The lookup of the fetch handler -/

theorem fetch_miss_goes_to_network (cfg : Config) (host : Host) (request : Request) (w : World)
    (hget : request.method = "GET")
    (hlookup : host.matchFault request.url = none)
    (hmiss : w.caches.find request.url = none) :
    ∃ rest, (onFetch cfg host request w).world.calls
      = w.calls ++ [Effect.cachesMatch request.url, Effect.fetch request.url] ++ rest := by
  cases hnet : host.network request.url with
  | error e =>
    by_cases hnav : request.mode = "navigate"
    · cases hroot : host.matchFault "/index.html" with
      | none =>
        exact ⟨[Effect.cachesMatch "/index.html"], by
          simp [onFetch, respondTask, fromNetwork, catchDo, thenDo, seq, cachesMatch, fetch,
            resolve, reject, console, call, hget, hlookup, hmiss, hnet, hnav, hroot]⟩
      | some e2 =>
        exact ⟨[Effect.cachesMatch "/index.html"], by
          simp [onFetch, respondTask, fromNetwork, catchDo, thenDo, seq, cachesMatch, fetch,
            resolve, reject, console, call, hget, hlookup, hmiss, hnet, hnav, hroot]⟩
    · exact ⟨[], by
        simp [onFetch, respondTask, fromNetwork, catchDo, thenDo, seq, cachesMatch, fetch,
          resolve, reject, console, call, hget, hlookup, hmiss, hnet, hnav]⟩
  | ok r =>
    by_cases hok : r.status = 200
    · cases hopen : host.openFault cfg.CACHE_NAME with
      | some e2 =>
        exact ⟨[Effect.cachesOpen cfg.CACHE_NAME], by
          simp [onFetch, respondTask, fromNetwork, storeCopy, catchDo, thenDo, seq, detach,
            cachesMatch, cachesOpen, fetch, resolve, console, call, hget, hlookup, hmiss, hnet,
            hok, hopen]⟩
      | none =>
        cases hput : host.putFault cfg.CACHE_NAME request.url with
        | some e3 =>
          exact ⟨[Effect.cachesOpen cfg.CACHE_NAME, Effect.cachePut cfg.CACHE_NAME request.url], by
            simp [onFetch, respondTask, fromNetwork, storeCopy, catchDo, thenDo, seq, detach,
              cachesMatch, cachesOpen, cachePut, fetch, resolve, console, call, hget, hlookup,
              hmiss, hnet, hok, hopen, hput]⟩
        | none =>
          exact ⟨[Effect.cachesOpen cfg.CACHE_NAME, Effect.cachePut cfg.CACHE_NAME request.url], by
            simp [onFetch, respondTask, fromNetwork, storeCopy, catchDo, thenDo, seq, detach,
              cachesMatch, cachesOpen, cachePut, fetch, resolve, console, call, hget, hlookup,
              hmiss, hnet, hok, hopen, hput]⟩
    · exact ⟨[], by
        simp [onFetch, respondTask, fromNetwork, catchDo, thenDo, cachesMatch, fetch,
          resolve, call, hget, hlookup, hmiss, hnet, hok]⟩

/-- C9, as amended: the lookup of the fetch handler runs over every generation
of the store, in creation order, whatever its name. For a GET request whose
lookup answers: when some generation holds an entry for the URL, the handler
is fulfilled with the entry of a generation of the store and the only host
call is the lookup; when no generation holds one, the request goes to the
network. -/
theorem fetch_lookup_over_all_generations (cfg : Config) (host : Host) (request : Request)
    (w : World)
    (hget : request.method = "GET")
    (hlookup : host.matchFault request.url = none) :
    ((∃ g ∈ w.caches, Cache.find g.2 request.url ≠ none) →
      ∃ g ∈ w.caches, ∃ r, Cache.find g.2 request.url = some r ∧
        (onFetch cfg host request w).respondWith = some (.fulfilled (some r)) ∧
        (onFetch cfg host request w).world.calls = w.calls ++ [Effect.cachesMatch request.url]) ∧
    ((∀ g ∈ w.caches, Cache.find g.2 request.url = none) →
      ∃ rest, (onFetch cfg host request w).world.calls
        = w.calls ++ [Effect.cachesMatch request.url, Effect.fetch request.url] ++ rest) := by
  constructor
  · rintro ⟨g, hg, hne⟩
    cases hfind : w.caches.find request.url with
    | none =>
      have := (List.findSome?_eq_none_iff.1 hfind) g hg
      exact absurd this hne
    | some r =>
      obtain ⟨g2, hg2, hr⟩ := List.exists_of_findSome?_eq_some hfind
      refine ⟨g2, hg2, r, hr, ?_, ?_⟩ <;>
        simp [onFetch, respondTask, catchDo, thenDo, cachesMatch, resolve, call, hget, hlookup,
          hfind]
  · intro hnone
    have hmiss : w.caches.find request.url = none := List.findSome?_eq_none_iff.2 hnone
    exact fetch_miss_goes_to_network cfg host request w hget hlookup hmiss

theorem fetch_lookup_over_all_generations_witness :
    (⟨"GET", "/old.css", "no-cors"⟩ : Request).method = "GET" ∧
    (∃ g ∈ upgraded.caches, Cache.find g.2 "/old.css" ≠ none) ∧
    ∃ g ∈ upgraded.caches, ∃ r, Cache.find g.2 "/old.css" = some r ∧
      (onFetch deployed (online missing) ⟨"GET", "/old.css", "no-cors"⟩ upgraded).respondWith
        = some (.fulfilled (some r)) ∧
      (onFetch deployed (online missing) ⟨"GET", "/old.css", "no-cors"⟩ upgraded).world.calls
        = upgraded.calls ++ [Effect.cachesMatch "/old.css"] :=
  have hex : ∃ g ∈ upgraded.caches, Cache.find g.2 "/old.css" ≠ none :=
    ⟨("portfolio-v1.0", [("/old.css", sheet)]), by decide, by decide⟩
  ⟨rfl, hex,
    (fetch_lookup_over_all_generations deployed (online missing) ⟨"GET", "/old.css", "no-cors"⟩
      upgraded rfl rfl).1 hex⟩

/-- C9 as stated fails: an entry that only the older generation portfolio-v1.0
holds, and the generation CACHE_NAME does not, is served as a cache hit, and
no network fetch is issued although the network would answer otherwise. -/
theorem fetch_hit_from_other_generation :
    deployed.CACHE_NAME = "portfolio-v1.1" ∧
    upgraded.caches.generation "portfolio-v1.0" = some [("/old.css", sheet)] ∧
    (upgraded.caches.generation deployed.CACHE_NAME).bind (fun c => Cache.find c "/old.css") = none ∧
    (online missing).network "/old.css" = .ok missing ∧
    (onFetch deployed (online missing) ⟨"GET", "/old.css", "no-cors"⟩ upgraded).respondWith
      = some (.fulfilled (some sheet)) ∧
    (onFetch deployed (online missing) ⟨"GET", "/old.css", "no-cors"⟩ upgraded).world.calls
      = [Effect.cachesMatch "/old.css"] := by
  refine ⟨rfl, by decide, by decide, rfl, by decide, by decide⟩

/-! ## A refused cache write -/

/-- Whatever the cache store does with the copy, a GET request that misses the
cache and whose network fetch gives a 200 response is answered with that
response. -/
theorem fetch_miss_ok_resolves (cfg : Config) (host : Host) (request : Request) (w : World)
    (networkResponse : Response)
    (hget : request.method = "GET")
    (hlookup : host.matchFault request.url = none)
    (hmiss : w.caches.find request.url = none)
    (hnet : host.network request.url = .ok networkResponse)
    (hok : networkResponse.status = 200) :
    (onFetch cfg host request w).respondWith = some (.fulfilled (some networkResponse)) := by
  simp [onFetch, respondTask, fromNetwork, catchDo, thenDo, seq, detach, cachesMatch, fetch,
    resolve, call, hget, hlookup, hmiss, hnet, hok]

/-- A refused open of the generation is logged by the fetch handler. -/
theorem fetch_open_failure_logged :
    (onFetch deployed sealed ⟨"GET", "/styles.css", "no-cors"⟩ installed).respondWith
      = some (.fulfilled (some sheet)) ∧
    (onFetch deployed sealed ⟨"GET", "/styles.css", "no-cors"⟩ installed).world.console
      = [⟨.warn, "SW: Failed to cache response:", "QuotaExceededError"⟩] := by
  decide

/-- C10 at the failing input: the generation opens and cache.put rejects with
QuotaExceededError. The handler is fulfilled with the network response, the
store is unchanged, and the console is empty: the rejection of cache.put is
not logged, its promise not being returned to the chain that ends in the
catch. -/
theorem fetch_put_failure_not_logged :
    full.putFault deployed.CACHE_NAME "/styles.css" = some "QuotaExceededError" ∧
    (onFetch deployed full ⟨"GET", "/styles.css", "no-cors"⟩ installed).respondWith
      = some (.fulfilled (some sheet)) ∧
    (onFetch deployed full ⟨"GET", "/styles.css", "no-cors"⟩ installed).world.caches
      = installed.caches ∧
    (onFetch deployed full ⟨"GET", "/styles.css", "no-cors"⟩ installed).world.calls
      = [Effect.cachesMatch "/styles.css", Effect.fetch "/styles.css",
         Effect.cachesOpen "portfolio-v1.1", Effect.cachePut "portfolio-v1.1" "/styles.css"] ∧
    (onFetch deployed full ⟨"GET", "/styles.css", "no-cors"⟩ installed).world.console = [] := by
  decide

/-! ## A failed cleanup -/

theorem Async.all_cons_rejected_head {α : Type} (p : Async α) (ps : List (Async α)) (w : World)
    (e : JsError) (hp : (p w).1 = .rejected e) :
    (all (p :: ps) w).1 = .rejected e := by
  rcases hpw : p w with ⟨s, w1⟩
  rw [hpw] at hp
  simp only at hp
  subst hp
  simp [all, hpw]

theorem Async.all_cons_rejected_tail {α : Type} (p : Async α) (ps : List (Async α)) (w : World)
    (a : α) (e : JsError) (hp : (p w).1 = .fulfilled a)
    (hps : (all ps (p w).2).1 = .rejected e) :
    (all (p :: ps) w).1 = .rejected e := by
  rcases hpw : p w with ⟨s, w1⟩
  rw [hpw] at hp hps
  simp only at hp hps
  subst hp
  rcases hq : all ps w1 with ⟨t, w2⟩
  rw [hq] at hps
  simp only at hps
  subst hps
  simp [all, hpw, hq]

theorem cleanupOne_refused (cfg : Config) (host : Host) (n : CacheName) (w : World)
    (e : JsError) (hn : n ≠ cfg.CACHE_NAME) (hdel : host.deleteFault n = some e) :
    (cleanupOne cfg host n w).1 = .rejected e := by
  simp [cleanupOne, hn, seq, thenDo, console, cachesDelete, hdel]

theorem cleanupOne_settles (cfg : Config) (host : Host) (n : CacheName) (w : World) :
    (∃ v, (cleanupOne cfg host n w).1 = .fulfilled v ∧
      (n = cfg.CACHE_NAME ∨ host.deleteFault n = none)) ∨
    (∃ e, (cleanupOne cfg host n w).1 = .rejected e ∧
      n ≠ cfg.CACHE_NAME ∧ host.deleteFault n = some e) := by
  by_cases hn : n = cfg.CACHE_NAME
  · subst hn
    exact Or.inl ⟨none, by rw [cleanupOne_current], Or.inl rfl⟩
  · cases hdel : host.deleteFault n with
    | none => exact Or.inl ⟨_, (cleanupOne_stale cfg host n w hn hdel).1, Or.inr rfl⟩
    | some e => exact Or.inr ⟨e, cleanupOne_refused cfg host n w e hn hdel, hn, rfl⟩

theorem cleanup_batch_rejects (cfg : Config) (host : Host) (names : List CacheName) :
    ∀ w : World,
    (∃ n ∈ names, n ≠ cfg.CACHE_NAME ∧ host.deleteFault n ≠ none) →
    ∃ n ∈ names, ∃ e, n ≠ cfg.CACHE_NAME ∧ host.deleteFault n = some e ∧
      (all (names.map (cleanupOne cfg host)) w).1 = .rejected e := by
  induction names with
  | nil => intro w h; simp at h
  | cons n ns ih =>
    intro w h
    rcases cleanupOne_settles cfg host n w with ⟨v, hv, hgood⟩ | ⟨e, he, hn, hdel⟩
    · have hrest : ∃ m ∈ ns, m ≠ cfg.CACHE_NAME ∧ host.deleteFault m ≠ none := by
        obtain ⟨m, hm, hmn, hmd⟩ := h
        rcases List.mem_cons.1 hm with rfl | hm
        · rcases hgood with hcur | hnone
          · exact absurd hcur hmn
          · exact absurd hnone hmd
        · exact ⟨m, hm, hmn, hmd⟩
      obtain ⟨m, hm, e, hmn, hmd, hrej⟩ := ih (cleanupOne cfg host n w).2 hrest
      exact ⟨m, List.mem_cons_of_mem _ hm, e, hmn, hmd, by
        rw [List.map_cons]
        exact Async.all_cons_rejected_tail _ _ _ _ _ hv hrej⟩
    · exact ⟨n, List.mem_cons_self _ _, e, hn, hdel, by
        rw [List.map_cons]
        exact Async.all_cons_rejected_head _ _ _ _ he⟩

theorem cleanupTask_keys_refused (cfg : Config) (host : Host) (w : World) (e : JsError)
    (hkeys : host.keysFault = some e) :
    cleanupTask cfg host w =
      (.fulfilled (), { call .cachesKeys w with
        console := w.console ++ [⟨.error, "SW: Failed to clean up old caches:", e⟩] }) := by
  simp [cleanupTask, catchDo, thenDo, cachesKeys, hkeys, console, call]

theorem cleanupTask_fulfilled (cfg : Config) (host : Host) (w : World) :
    (cleanupTask cfg host w).1 = .fulfilled () := by
  unfold cleanupTask catchDo
  split
  · rename_i a w1 h
    cases a
    rfl
  · rfl

theorem cleanupTask_batch_rejected (cfg : Config) (host : Host) (w : World) (e : JsError)
    (hkeys : host.keysFault = none)
    (hrej : (all (w.caches.keys.map (cleanupOne cfg host)) (call .cachesKeys w)).1 = .rejected e) :
    (⟨.error, "SW: Failed to clean up old caches:", e⟩ : LogEntry)
      ∈ (cleanupTask cfg host w).2.console := by
  rcases hall : all (w.caches.keys.map (cleanupOne cfg host)) (call .cachesKeys w) with ⟨s, w1⟩
  rw [hall] at hrej
  simp only at hrej
  subst hrej
  simp [cleanupTask, catchDo, thenDo, void, cachesKeys, hkeys, hall, console]

/-- C11: whatever keys() and the deletions answer, the promise that the
activate handler hands to waitUntil is fulfilled; when keys() rejects, or
when it answers and a deletion that the handler asks for rejects, the error
is on the console under 'SW: Failed to clean up old caches:'. -/
theorem activate_never_fails (cfg : Config) (host : Host) (w : World) :
    (onActivate cfg host w).waitUntil = .fulfilled () ∧
    (∀ e, host.keysFault = some e →
      (⟨.error, "SW: Failed to clean up old caches:", e⟩ : LogEntry)
        ∈ (onActivate cfg host w).world.console) ∧
    (host.keysFault = none →
      (∃ n ∈ w.caches.keys, n ≠ cfg.CACHE_NAME ∧ host.deleteFault n ≠ none) →
      ∃ n ∈ w.caches.keys, ∃ e, n ≠ cfg.CACHE_NAME ∧ host.deleteFault n = some e ∧
        (⟨.error, "SW: Failed to clean up old caches:", e⟩ : LogEntry)
          ∈ (onActivate cfg host w).world.console) := by
  refine ⟨cleanupTask_fulfilled cfg host w, ?_, ?_⟩
  · intro e hkeys
    simp [onActivate, cleanupTask_keys_refused cfg host w e hkeys, call]
  · intro hkeys hbad
    obtain ⟨n, hn, e, hne, hdel, hrej⟩ :=
      cleanup_batch_rejects cfg host w.caches.keys (call .cachesKeys w) hbad
    exact ⟨n, hn, e, hne, hdel, by
      simpa [onActivate, call] using cleanupTask_batch_rejected cfg host w e hkeys hrej⟩

theorem activate_never_fails_witness :
    blind.keysFault = some "InvalidStateError" ∧
    (onActivate deployed blind upgraded).waitUntil = .fulfilled () ∧
    (⟨.error, "SW: Failed to clean up old caches:", "InvalidStateError"⟩ : LogEntry)
      ∈ (onActivate deployed blind upgraded).world.console ∧
    (onActivate deployed stuck upgraded).waitUntil = .fulfilled () ∧
    (onActivate deployed stuck upgraded).world.console
      = [⟨.log, "SW: Deleting old cache:", "portfolio-v1.0"⟩,
         ⟨.error, "SW: Failed to clean up old caches:", "UnknownError"⟩] :=
  ⟨rfl, (activate_never_fails deployed blind upgraded).1,
    (activate_never_fails deployed blind upgraded).2.1 "InvalidStateError" rfl,
    (activate_never_fails deployed stuck upgraded).1, by decide⟩

/-! ## A failed lookup, and the fallback without a root document -/

/-- A rejected lookup of the request makes the handler log the error and reject
with it; nothing else is asked of the host. -/
theorem fetch_lookup_failure_rejects (cfg : Config) (host : Host) (request : Request) (w : World)
    (e : JsError)
    (hget : request.method = "GET")
    (hlookup : host.matchFault request.url = some e) :
    (onFetch cfg host request w).respondWith = some (.rejected e) ∧
    (onFetch cfg host request w).world.console
      = w.console ++ [⟨.error, "SW: Fetch event failed:", e⟩] ∧
    (onFetch cfg host request w).world.calls = w.calls ++ [Effect.cachesMatch request.url] ∧
    (onFetch cfg host request w).world.caches = w.caches := by
  simp [onFetch, respondTask, catchDo, thenDo, seq, cachesMatch, reject, console, call, hget,
    hlookup]

/-- C13 at the failing input: offline, a navigation request for /about on a
store in which no generation holds /index.html. The network error does not
reach the caller: the promise handed to respondWith is fulfilled with
undefined, and the error line of the outer catch is not printed. -/
theorem fetch_error_becomes_empty_response :
    offline.network "/about" = .error "TypeError: Failed to fetch" ∧
    stale.caches.find "/about" = none ∧
    stale.caches.find "/index.html" = none ∧
    (onFetch deployed offline ⟨"GET", "/about", "navigate"⟩ stale).respondWith
      = some (.fulfilled none) ∧
    (onFetch deployed offline ⟨"GET", "/about", "navigate"⟩ stale).world.console
      = [⟨.warn, "SW: Network request failed:", "TypeError: Failed to fetch"⟩] :=
  ⟨rfl, by decide, by decide, by decide, by decide⟩

/-- C14: a GET navigation request that misses the cache and whose network fetch
rejects, on a store in which no generation holds /index.html, makes the
handler fulfil the promise handed to respondWith with undefined; it does not
reject with the network error. -/
theorem fetch_offline_navigation_without_root (cfg : Config) (host : Host) (request : Request)
    (w : World) (e : JsError)
    (hget : request.method = "GET")
    (hnav : request.mode = "navigate")
    (hlookup : host.matchFault request.url = none)
    (hmiss : w.caches.find request.url = none)
    (hnet : host.network request.url = .error e)
    (hrootLookup : host.matchFault "/index.html" = none)
    (hroot : ∀ g ∈ w.caches, Cache.find g.2 "/index.html" = none) :
    (onFetch cfg host request w).respondWith = some (.fulfilled none) ∧
    (onFetch cfg host request w).respondWith ≠ some (.rejected e) := by
  have hfind : w.caches.find "/index.html" = none := List.findSome?_eq_none_iff.2 hroot
  have h : (onFetch cfg host request w).respondWith = some (.fulfilled none) := by
    simp [onFetch, respondTask, fromNetwork, catchDo, thenDo, seq, cachesMatch, fetch, resolve,
      console, call, hget, hnav, hlookup, hmiss, hnet, hrootLookup, hfind]
  exact ⟨h, by rw [h]; simp⟩

theorem fetch_offline_navigation_without_root_witness :
    (⟨"GET", "/about", "navigate"⟩ : Request).method = "GET" ∧
    (⟨"GET", "/about", "navigate"⟩ : Request).mode = "navigate" ∧
    stale.caches.find "/about" = none ∧
    offline.network "/about" = .error "TypeError: Failed to fetch" ∧
    (∀ g ∈ stale.caches, Cache.find g.2 "/index.html" = none) ∧
    (onFetch deployed offline ⟨"GET", "/about", "navigate"⟩ stale).respondWith
      = some (.fulfilled none) ∧
    (onFetch deployed offline ⟨"GET", "/about", "navigate"⟩ stale).respondWith
      ≠ some (.rejected "TypeError: Failed to fetch") :=
  ⟨rfl, rfl, by decide, rfl, by decide,
    fetch_offline_navigation_without_root deployed offline ⟨"GET", "/about", "navigate"⟩ stale
      "TypeError: Failed to fetch" rfl rfl rfl (by decide) rfl rfl (by decide)⟩

/-! ## What the fetch handler can change in the store -/

theorem Cache.find_put_other (c : Cache) (u v : Url) (r : Response) (h : v ≠ u) :
    Cache.find (Cache.put c v r) u = Cache.find c u := by
  unfold Cache.find Cache.put
  have hvu : (u == v) = false := by simpa using fun h3 => h h3.symm
  induction c with
  | nil => simp [List.lookup, hvu]
  | cons e es ih =>
    rcases e with ⟨k, x⟩
    by_cases hk : k = v
    · subst hk
      simpa [List.filter_cons, List.lookup, hvu] using ih
    · have h4 : (k != v) = true := by simpa using hk
      by_cases hku : u = k
      · subst hku
        simp [List.filter_cons, h4, List.lookup]
      · have h5 : (u == k) = false := by simpa using hku
        simpa [List.filter_cons, h4, List.lookup, h5] using ih

theorem CacheStorage.filter_openCache (s : CacheStorage) (n : CacheName) :
    (s.openCache n).filter (fun g => g.1 != n) = s.filter (fun g => g.1 != n) := by
  unfold CacheStorage.openCache
  split
  · rfl
  · simp [List.filter_append]

theorem CacheStorage.filter_putIn (s : CacheStorage) (n : CacheName) (u : Url) (r : Response) :
    (s.putIn n u r).filter (fun g => g.1 != n) = s.filter (fun g => g.1 != n) := by
  unfold CacheStorage.putIn
  induction s with
  | nil => rfl
  | cons g gs ih =>
    rcases g with ⟨m, c⟩
    by_cases hm : m = n
    · subst hm
      simpa [List.filter_cons] using ih
    · have h4 : (m != n) = true := by simpa using hm
      simp only [List.map_cons]
      rw [if_neg (by simpa using hm)]
      simp only [List.filter_cons, h4, if_true]
      rw [ih]

theorem CacheStorage.keys_putIn (s : CacheStorage) (n : CacheName) (u : Url) (r : Response) :
    (s.putIn n u r).keys = s.keys := by
  unfold CacheStorage.putIn CacheStorage.keys
  rw [List.map_map]
  apply List.map_congr_left
  intro g _
  by_cases hg : g.1 = n <;> simp [hg]

theorem CacheStorage.mem_keys_openCache (s : CacheStorage) (n m : CacheName)
    (h : m ∈ s.keys) : m ∈ (s.openCache n).keys := by
  unfold CacheStorage.openCache
  split
  · exact h
  · simp only [CacheStorage.keys, List.map_append, List.mem_append]
    exact Or.inl h

theorem CacheStorage.generation_openCache_getD (s : CacheStorage) (n : CacheName) :
    ((s.openCache n).generation n).getD [] = (s.generation n).getD [] := by
  unfold CacheStorage.openCache CacheStorage.generation CacheStorage.has
  induction s with
  | nil => simp [List.lookup]
  | cons g gs ih =>
    rcases g with ⟨m, c⟩
    by_cases hm : m = n
    · subst hm
      simp [List.lookup]
    · have h2 : (n == m) = false := by simpa using fun h3 => hm h3.symm
      by_cases hany : gs.any (fun g => g.1 == n) = true
      · simp [hm, hany, List.lookup, h2]
      · simpa [hm, hany, List.lookup, h2] using ih

theorem CacheStorage.generation_putIn_getD (s : CacheStorage) (n : CacheName) (u : Url)
    (r : Response) :
    (∃ c, s.generation n = some c ∧ (s.putIn n u r).generation n = some (Cache.put c u r)) ∨
    (s.generation n = none ∧ (s.putIn n u r).generation n = none) := by
  cases h : s.generation n with
  | some c => exact Or.inl ⟨c, rfl, CacheStorage.generation_putIn s n u r c h⟩
  | none =>
    refine Or.inr ⟨rfl, ?_⟩
    unfold CacheStorage.putIn CacheStorage.generation at *
    induction s with
    | nil => rfl
    | cons g gs ih =>
      rcases g with ⟨m, c⟩
      by_cases hm : m = n
      · subst hm
        simp [List.lookup] at h
      · have h2 : (n == m) = false := by simpa using fun h3 => hm h3.symm
        simp only [List.lookup, h2] at h
        simp only [List.map_cons]
        rw [if_neg (by simpa using hm)]
        simpa [List.lookup, h2] using ih h

theorem fetch_store_cases (cfg : Config) (host : Host) (request : Request) (w : World) :
    (onFetch cfg host request w).world.caches = w.caches ∨
    (onFetch cfg host request w).world.caches = w.caches.openCache cfg.CACHE_NAME ∨
    ∃ r, host.network request.url = .ok r ∧ r.status = 200 ∧
      (onFetch cfg host request w).world.caches
        = (w.caches.openCache cfg.CACHE_NAME).putIn cfg.CACHE_NAME request.url r.clone := by
  by_cases hget : request.method = "GET"
  swap
  · exact Or.inl (by simp [onFetch, hget])
  cases hlookup : host.matchFault request.url with
  | some e =>
    exact Or.inl (by
      simp [onFetch, respondTask, catchDo, thenDo, seq, cachesMatch, reject, console, call, hget,
        hlookup])
  | none =>
    cases hfind : w.caches.find request.url with
    | some cached =>
      exact Or.inl (by
        simp [onFetch, respondTask, catchDo, thenDo, cachesMatch, resolve, call, hget, hlookup,
          hfind])
    | none =>
      cases hnet : host.network request.url with
      | error e =>
        by_cases hnav : request.mode = "navigate"
        · cases hroot : host.matchFault "/index.html" with
          | none =>
            exact Or.inl (by
              simp [onFetch, respondTask, fromNetwork, catchDo, thenDo, seq, cachesMatch, fetch,
                resolve, reject, console, call, hget, hlookup, hfind, hnet, hnav, hroot])
          | some e2 =>
            exact Or.inl (by
              simp [onFetch, respondTask, fromNetwork, catchDo, thenDo, seq, cachesMatch, fetch,
                resolve, reject, console, call, hget, hlookup, hfind, hnet, hnav, hroot])
        · exact Or.inl (by
            simp [onFetch, respondTask, fromNetwork, catchDo, thenDo, seq, cachesMatch, fetch,
              resolve, reject, console, call, hget, hlookup, hfind, hnet, hnav])
      | ok r =>
        by_cases hok : r.status = 200
        · cases hopen : host.openFault cfg.CACHE_NAME with
          | some e2 =>
            exact Or.inl (by
              simp [onFetch, respondTask, fromNetwork, storeCopy, catchDo, thenDo, seq, detach,
                cachesMatch, cachesOpen, fetch, resolve, console, call, hget, hlookup, hfind,
                hnet, hok, hopen])
          | none =>
            cases hput : host.putFault cfg.CACHE_NAME request.url with
            | some e3 =>
              exact Or.inr (Or.inl (by
                simp [onFetch, respondTask, fromNetwork, storeCopy, catchDo, thenDo, seq, detach,
                  cachesMatch, cachesOpen, cachePut, fetch, resolve, console, call, hget,
                  hlookup, hfind, hnet, hok, hopen, hput]))
            | none =>
              exact Or.inr (Or.inr ⟨r, rfl, hok, by
                simp [onFetch, respondTask, fromNetwork, storeCopy, catchDo, thenDo, seq, detach,
                  cachesMatch, cachesOpen, cachePut, fetch, resolve, console, call, hget,
                  hlookup, hfind, hnet, hok, hopen, hput]⟩)
        · exact Or.inl (by
            simp [onFetch, respondTask, fromNetwork, catchDo, thenDo, cachesMatch, fetch,
              resolve, call, hget, hlookup, hfind, hnet, hok])

/-- C15, as amended: for every request, host and world, the store after the
fetch handler is the store before, or the store before with the generation
CACHE_NAME created empty when it was absent (the effect of caches.open), or
that store with the entry of the request in CACHE_NAME set to the copy of a
200 network response. So when the generation CACHE_NAME exists, the only
change can be that entry. In every case the generations of any other name
are the same, in the same order; no generation disappears; in the generation
CACHE_NAME every other key has the entry it had; and the entry of the
request is the one it had or that copy. -/
theorem fetch_store_frame (cfg : Config) (host : Host) (request : Request) (w : World) :
    ((onFetch cfg host request w).world.caches = w.caches ∨
      (onFetch cfg host request w).world.caches = w.caches.openCache cfg.CACHE_NAME ∨
      ∃ r, host.network request.url = .ok r ∧ r.status = 200 ∧
        (onFetch cfg host request w).world.caches
          = (w.caches.openCache cfg.CACHE_NAME).putIn cfg.CACHE_NAME request.url r.clone) ∧
    (w.caches.has cfg.CACHE_NAME = true →
      (onFetch cfg host request w).world.caches = w.caches ∨
      ∃ r, host.network request.url = .ok r ∧ r.status = 200 ∧
        (onFetch cfg host request w).world.caches
          = w.caches.putIn cfg.CACHE_NAME request.url r.clone) ∧
    (onFetch cfg host request w).world.caches.filter (fun g => g.1 != cfg.CACHE_NAME)
      = w.caches.filter (fun g => g.1 != cfg.CACHE_NAME) ∧
    (∀ n ∈ w.caches.keys, n ∈ (onFetch cfg host request w).world.caches.keys) ∧
    (∀ u, u ≠ request.url →
      Cache.find (((onFetch cfg host request w).world.caches.generation cfg.CACHE_NAME).getD []) u
        = Cache.find ((w.caches.generation cfg.CACHE_NAME).getD []) u) ∧
    (Cache.find (((onFetch cfg host request w).world.caches.generation cfg.CACHE_NAME).getD [])
        request.url
        = Cache.find ((w.caches.generation cfg.CACHE_NAME).getD []) request.url ∨
      ∃ r, host.network request.url = .ok r ∧ r.status = 200 ∧
        Cache.find (((onFetch cfg host request w).world.caches.generation cfg.CACHE_NAME).getD [])
          request.url = some r.clone) := by
  refine ⟨fetch_store_cases cfg host request w, ?_, ?_⟩
  · intro hhas
    have hopen : w.caches.openCache cfg.CACHE_NAME = w.caches := by
      simp [CacheStorage.openCache, hhas]
    rcases fetch_store_cases cfg host request w with h | h | ⟨r, hnet, hok, h⟩
    · exact Or.inl h
    · exact Or.inl (h.trans hopen)
    · exact Or.inr ⟨r, hnet, hok, by rw [h, hopen]⟩
  rcases fetch_store_cases cfg host request w with h | h | ⟨r, hnet, hok, h⟩
  · rw [h]
    exact ⟨rfl, fun _ hn => hn, fun _ _ => rfl, Or.inl rfl⟩
  · rw [h]
    refine ⟨CacheStorage.filter_openCache _ _, fun n hn => CacheStorage.mem_keys_openCache _ _ _ hn,
      fun u _ => ?_, Or.inl ?_⟩ <;> rw [CacheStorage.generation_openCache_getD]
  · rw [h]
    obtain ⟨c, hc⟩ := CacheStorage.generation_openCache w.caches cfg.CACHE_NAME
    have hput := CacheStorage.generation_putIn _ _ request.url r.clone c hc
    have hsame := CacheStorage.generation_openCache_getD w.caches cfg.CACHE_NAME
    rw [hc] at hsame
    simp only [Option.getD_some] at hsame
    refine ⟨?_, ?_, ?_, Or.inr ⟨r, hnet, hok, ?_⟩⟩
    · rw [CacheStorage.filter_putIn, CacheStorage.filter_openCache]
    · intro n hn
      rw [CacheStorage.keys_putIn]
      exact CacheStorage.mem_keys_openCache _ _ _ hn
    · intro u hu
      rw [hput, Option.getD_some, ← hsame]
      exact Cache.find_put_other c u request.url r.clone (fun h3 => hu h3.symm)
    · rw [hput, Option.getD_some]
      exact Cache.find_put_same _ _ _

theorem fetch_store_frame_witness :
    upgraded.caches.has deployed.CACHE_NAME = true ∧
    (onFetch deployed (online sheet) ⟨"GET", "/styles.css", "no-cors"⟩ upgraded).world.caches
      = [("portfolio-v1.0", [("/old.css", sheet)]),
         ("portfolio-v1.1", [("/index.html", page), ("/styles.css", sheet)])] ∧
    ((onFetch deployed (online sheet) ⟨"GET", "/styles.css", "no-cors"⟩ upgraded).world.caches
        = upgraded.caches ∨
      ∃ r, (online sheet).network "/styles.css" = .ok r ∧ r.status = 200 ∧
        (onFetch deployed (online sheet) ⟨"GET", "/styles.css", "no-cors"⟩ upgraded).world.caches
          = upgraded.caches.putIn deployed.CACHE_NAME "/styles.css" r.clone) ∧
    (onFetch deployed (online sheet) ⟨"GET", "/styles.css", "no-cors"⟩ upgraded).world.caches.filter
        (fun g => g.1 != deployed.CACHE_NAME)
      = upgraded.caches.filter (fun g => g.1 != deployed.CACHE_NAME) ∧
    Cache.find
        (((onFetch deployed (online sheet) ⟨"GET", "/styles.css", "no-cors"⟩
          upgraded).world.caches.generation deployed.CACHE_NAME).getD []) "/index.html"
      = Cache.find ((upgraded.caches.generation deployed.CACHE_NAME).getD []) "/index.html" :=
  ⟨by decide, by decide,
    (fetch_store_frame deployed (online sheet) ⟨"GET", "/styles.css", "no-cors"⟩ upgraded).2.1
      (by decide),
    (fetch_store_frame deployed (online sheet) ⟨"GET", "/styles.css", "no-cors"⟩ upgraded).2.2.1,
    (fetch_store_frame deployed (online sheet) ⟨"GET", "/styles.css", "no-cors"⟩
      upgraded).2.2.2.2.1 "/index.html" (by decide)⟩

/-- C15 as stated fails: on a store without the generation CACHE_NAME, a GET
request that misses, with a 200 network response, caches.open succeeding and
cache.put refused. The handler leaves a new, empty generation CACHE_NAME:
keys() has changed and no entry has been set. -/
theorem fetch_creates_empty_generation :
    stale.caches.keys = ["portfolio-v1.0"] ∧
    full.openFault deployed.CACHE_NAME = none ∧
    full.putFault deployed.CACHE_NAME "/styles.css" = some "QuotaExceededError" ∧
    (onFetch deployed full ⟨"GET", "/styles.css", "no-cors"⟩ stale).respondWith
      = some (.fulfilled (some sheet)) ∧
    (onFetch deployed full ⟨"GET", "/styles.css", "no-cors"⟩ stale).world.caches
      = [("portfolio-v1.0", [("/old.css", sheet)]), ("portfolio-v1.1", [])] ∧
    (onFetch deployed full ⟨"GET", "/styles.css", "no-cors"⟩ stale).world.caches.keys
      = ["portfolio-v1.0", "portfolio-v1.1"] ∧
    (onFetch deployed full ⟨"GET", "/styles.css", "no-cors"⟩ stale).world.caches.generation
      deployed.CACHE_NAME = some [] :=
  ⟨by decide, by decide, by decide, by decide, by decide, by decide, by decide⟩

/-! ## Upgrade: install, activate, fetch -/

theorem fetchAll_fulfilled (host : Host) (urls : List Url) :
    ∀ (w : World) (rs : List (Url × Response)), (fetchAll host urls w).1 = .fulfilled rs →
    rs.map Prod.fst = urls ∧ (∀ p ∈ rs, host.network p.1 = .ok p.2) := by
  induction urls with
  | nil =>
    intro w rs h
    simp [fetchAll, resolve] at h
    subst h
    simp
  | cons u us ih =>
    intro w rs h
    cases hnet : host.network u with
    | error e => simp [fetchAll, thenDo, fetch, hnet] at h
    | ok r =>
      rcases h1 : fetchAll host us (call (.fetch u) w) with ⟨s1, v1⟩
      cases s1 with
      | rejected e => simp [fetchAll, thenDo, fetch, hnet, h1] at h
      | fulfilled rs1 =>
        simp [fetchAll, thenDo, fetch, hnet, h1, resolve] at h
        subst h
        have h2 := ih (call (.fetch u) w) rs1 (by rw [h1])
        refine ⟨by simp [h2.1], ?_⟩
        intro p hp
        rcases List.mem_cons.1 hp with rfl | hp
        · exact hnet
        · exact h2.2 p hp

theorem fetchAll_caches (host : Host) (urls : List Url) :
    ∀ w : World, (fetchAll host urls w).2.caches = w.caches := by
  induction urls with
  | nil => intro w; rfl
  | cons u us ih =>
    intro w
    cases hnet : host.network u with
    | error e => simp [fetchAll, thenDo, fetch, hnet, call]
    | ok r =>
      have h2 : (fetchAll host us (call (.fetch u) w)).2.caches = w.caches :=
        (ih (call (.fetch u) w)).trans rfl
      rcases h1 : fetchAll host us (call (.fetch u) w) with ⟨s1, v1⟩
      rw [h1] at h2
      cases s1 <;> simpa only [fetchAll, thenDo, fetch, hnet, h1, resolve] using h2

theorem CacheStorage.putIn_holds (s : CacheStorage) (n : CacheName) (u : Url) (r : Response) :
    ∀ g ∈ s.putIn n u r, g.1 = n → Cache.find g.2 u = some r := by
  intro g hg hgn
  simp only [CacheStorage.putIn, List.mem_map] at hg
  obtain ⟨g0, _, rfl⟩ := hg
  by_cases h0 : g0.1 = n
  · simp only [h0, beq_self_eq_true, if_true]
    exact Cache.find_put_same _ _ _
  · rw [if_neg (by simpa using h0)] at hgn
    exact absurd hgn h0

theorem CacheStorage.putIn_keeps (s : CacheStorage) (n : CacheName) (u v : Url) (r x : Response)
    (hs : ∀ g ∈ s, g.1 = n → Cache.find g.2 u = some r) (hv : v = u → x = r) :
    ∀ g ∈ s.putIn n v x, g.1 = n → Cache.find g.2 u = some r := by
  intro g hg hgn
  by_cases hvu : v = u
  · subst hvu
    rw [← hv rfl]
    exact CacheStorage.putIn_holds s n v x g hg hgn
  · simp only [CacheStorage.putIn, List.mem_map] at hg
    obtain ⟨g0, hg0, rfl⟩ := hg
    by_cases h0 : g0.1 = n
    · simp only [h0, beq_self_eq_true, if_true]
      rw [Cache.find_put_other _ _ _ _ hvu]
      exact hs g0 hg0 h0
    · rw [if_neg (by simpa using h0)] at hgn
      exact absurd hgn h0

theorem CacheStorage.foldl_putIn_keeps (n : CacheName) (u : Url) (r : Response)
    (rs : List (Url × Response)) :
    ∀ s : CacheStorage, (∀ g ∈ s, g.1 = n → Cache.find g.2 u = some r) →
    (∀ p ∈ rs, p.1 = u → p.2 = r) →
    ∀ g ∈ rs.foldl (fun s p => s.putIn n p.1 p.2) s, g.1 = n → Cache.find g.2 u = some r := by
  induction rs with
  | nil => intro s hs _; exact hs
  | cons q qs ih =>
    intro s hs hrs
    simp only [List.foldl_cons]
    exact ih _ (CacheStorage.putIn_keeps s n u q.1 r q.2 hs (hrs q (List.mem_cons_self _ _)))
      (fun p hp => hrs p (List.mem_cons_of_mem _ hp))

theorem CacheStorage.foldl_putIn_holds (n : CacheName) (rs : List (Url × Response)) :
    ∀ s : CacheStorage, (∀ p ∈ rs, ∀ q ∈ rs, p.1 = q.1 → p.2 = q.2) →
    ∀ p ∈ rs, ∀ g ∈ rs.foldl (fun s p => s.putIn n p.1 p.2) s, g.1 = n →
      Cache.find g.2 p.1 = some p.2 := by
  induction rs with
  | nil => intro s _ p hp; simp at hp
  | cons q qs ih =>
    intro s hfun p hp
    simp only [List.foldl_cons]
    rcases List.mem_cons.1 hp with rfl | hp
    · exact CacheStorage.foldl_putIn_keeps n p.1 p.2 qs _ (CacheStorage.putIn_holds s n p.1 p.2)
        (fun p2 hp2 h => hfun p2 (List.mem_cons_of_mem _ hp2) p (List.mem_cons_self _ _) h)
    · exact ih _ (fun a ha b hb => hfun a (List.mem_cons_of_mem _ ha) b (List.mem_cons_of_mem _ hb))
        p hp

theorem CacheStorage.keys_foldl_putIn (n : CacheName) (rs : List (Url × Response)) :
    ∀ s : CacheStorage, (rs.foldl (fun s p => s.putIn n p.1 p.2) s).keys = s.keys := by
  induction rs with
  | nil => intro s; rfl
  | cons q qs ih =>
    intro s
    simp only [List.foldl_cons]
    rw [ih, CacheStorage.keys_putIn]

theorem CacheStorage.mem_keys_openCache_self (s : CacheStorage) (n : CacheName) :
    n ∈ (s.openCache n).keys := by
  unfold CacheStorage.openCache CacheStorage.has
  split
  · rename_i h
    simp only [List.any_eq_true, beq_iff_eq] at h
    obtain ⟨g, hg, hgn⟩ := h
    exact hgn ▸ List.mem_map_of_mem Prod.fst hg
  · simp [CacheStorage.keys]

theorem CacheStorage.generation_filter_other (s : CacheStorage) (n v : CacheName) (h : n ≠ v) :
    CacheStorage.generation (s.filter (fun g => g.1 == v)) n = none := by
  unfold CacheStorage.generation
  induction s with
  | nil => rfl
  | cons g gs ih =>
    rcases g with ⟨m, c⟩
    by_cases hm : m = v
    · subst hm
      have h2 : (n == m) = false := by simpa using h
      simpa [List.filter_cons, List.lookup, h2] using ih
    · simpa [List.filter_cons, hm] using ih

theorem CacheStorage.generation_of_mem_keys (s : CacheStorage) (n : CacheName)
    (h : n ∈ s.keys) : ∃ c, s.generation n = some c ∧ (n, c) ∈ s := by
  unfold CacheStorage.generation
  induction s with
  | nil => simp [CacheStorage.keys] at h
  | cons g gs ih =>
    rcases g with ⟨m, c⟩
    by_cases hm : m = n
    · subst hm
      exact ⟨c, by simp [List.lookup], List.mem_cons_self _ _⟩
    · have h2 : (n == m) = false := by simpa using fun h3 => hm h3.symm
      have hn : n ∈ CacheStorage.keys gs := by
        simp only [CacheStorage.keys, List.map_cons, List.mem_cons] at h
        rcases h with h | h
        · exact absurd h.symm hm
        · exact h
      obtain ⟨c2, hc2, hmem⟩ := ih hn
      exact ⟨c2, by simpa [List.lookup, h2] using hc2, List.mem_cons_of_mem _ hmem⟩

theorem CacheStorage.find_of_all (s : CacheStorage) (u : Url) (r : Response)
    (hne : s ≠ []) (hall : ∀ g ∈ s, Cache.find g.2 u = some r) : s.find u = some r := by
  cases s with
  | nil => exact absurd rfl hne
  | cons g gs =>
    simp [CacheStorage.find, List.findSome?_cons, hall g (List.mem_cons_self _ _)]

theorem cacheAddAll_fulfilled (host : Host) (n : CacheName) (urls : List Url) (w : World)
    (h : (cacheAddAll host n urls w).1 = .fulfilled ()) :
    ∃ rs : List (Url × Response), rs.map Prod.fst = urls ∧
      (∀ p ∈ rs, host.network p.1 = .ok p.2) ∧
      (cacheAddAll host n urls w).2.caches
        = rs.foldl (fun s p => s.putIn n p.1 p.2) w.caches := by
  have hcaches : (fetchAll host urls (call (.cacheAddAll n urls) w)).2.caches = w.caches :=
    (fetchAll_caches host urls _).trans rfl
  rcases h1 : fetchAll host urls (call (.cacheAddAll n urls) w) with ⟨s1, v1⟩
  rw [h1] at hcaches
  simp only at hcaches
  cases s1 with
  | rejected e => simp [cacheAddAll, thenDo, h1] at h
  | fulfilled rs =>
    have hrs := fetchAll_fulfilled host urls _ rs (by rw [h1])
    refine ⟨rs, hrs.1, hrs.2, ?_⟩
    simp only [cacheAddAll, thenDo, h1] at h ⊢
    by_cases hadd : rs.all (fun p => addable p.2) = true
    · rw [if_pos hadd] at h ⊢
      cases hput : urls.findSome? (host.putFault n) with
      | some e => rw [hput] at h; simp [reject] at h
      | none => simp only [hcaches]
    · rw [if_neg hadd] at h
      simp [reject] at h

theorem install_fulfilled_world (cfg : Config) (host : Host) (w : World)
    (h : (onInstall cfg host w).waitUntil = .fulfilled ()) :
    ∃ rs : List (Url × Response), rs.map Prod.fst = cfg.urlsToCache ∧
      (∀ p ∈ rs, host.network p.1 = .ok p.2) ∧
      (onInstall cfg host w).world.caches
        = rs.foldl (fun s p => s.putIn cfg.CACHE_NAME p.1 p.2)
            (w.caches.openCache cfg.CACHE_NAME) := by
  cases hopen : host.openFault cfg.CACHE_NAME with
  | some e =>
    simp [onInstall, installTask, catchDo, thenDo, seq, cachesOpen, hopen, console, reject] at h
  | none =>
    have hrun : installTask cfg host w =
        catchDo (cacheAddAll host cfg.CACHE_NAME cfg.urlsToCache)
          (fun error => seq (console .error "SW: Failed to cache resources:" error) (reject error))
          ({ caches := w.caches.openCache cfg.CACHE_NAME
             console := w.console ++ [⟨.log, "SW: Cache opened successfully", ""⟩]
             calls := w.calls ++ [.cachesOpen cfg.CACHE_NAME] } : World) := by
      simp [installTask, catchDo, thenDo, seq, cachesOpen, hopen, console, call]
    simp only [onInstall, hrun] at h ⊢
    rcases h2 : cacheAddAll host cfg.CACHE_NAME cfg.urlsToCache
      ({ caches := w.caches.openCache cfg.CACHE_NAME
         console := w.console ++ [⟨.log, "SW: Cache opened successfully", ""⟩]
         calls := w.calls ++ [.cachesOpen cfg.CACHE_NAME] } : World) with ⟨s2, v2⟩
    cases s2 with
    | rejected e => simp [catchDo, h2, seq, thenDo, console, reject] at h
    | fulfilled a =>
      obtain ⟨rs, hrs1, hrs2, hrs3⟩ := cacheAddAll_fulfilled host cfg.CACHE_NAME cfg.urlsToCache _
        (by rw [h2])
      rw [h2] at hrs3
      exact ⟨rs, hrs1, hrs2, by simpa [catchDo, h2] using hrs3⟩

theorem upgrade_then_fetch (cfg : Config) (install activate serve : Host) (w : World)
    (request : Request)
    (hinstall : (onInstall cfg install w).waitUntil = .fulfilled ())
    (hkeys : activate.keysFault = none)
    (hdelete : ∀ n ∈ (onInstall cfg install w).world.caches.keys,
      n ≠ cfg.CACHE_NAME → activate.deleteFault n = none)
    (hget : request.method = "GET")
    (hurl : request.url ∈ cfg.urlsToCache)
    (hlookup : serve.matchFault request.url = none) :
    (∀ n, n ≠ cfg.CACHE_NAME →
      (onActivate cfg activate (onInstall cfg install w).world).world.caches.generation n = none) ∧
    ∃ c r,
      (onActivate cfg activate (onInstall cfg install w).world).world.caches.generation
        cfg.CACHE_NAME = some c ∧
      Cache.find c request.url = some r ∧
      install.network request.url = .ok r ∧
      (onFetch cfg serve request
        (onActivate cfg activate (onInstall cfg install w).world).world).respondWith
        = some (.fulfilled (some r)) ∧
      (onFetch cfg serve request
        (onActivate cfg activate (onInstall cfg install w).world).world).world.calls
        = (onActivate cfg activate (onInstall cfg install w).world).world.calls
          ++ [Effect.cachesMatch request.url] := by
  obtain ⟨rs, hrs1, hrs2, hrs3⟩ := install_fulfilled_world cfg install w hinstall
  have hact := (activate_world_caches cfg activate _ hkeys hdelete).2
  -- the response stored for the URL of the request
  have hmem : request.url ∈ rs.map Prod.fst := by rw [hrs1]; exact hurl
  obtain ⟨p, hp, hpu⟩ := List.mem_map.1 hmem
  have hnet : install.network request.url = .ok p.2 := hpu ▸ hrs2 p hp
  have hfun : ∀ a ∈ rs, ∀ b ∈ rs, a.1 = b.1 → a.2 = b.2 := by
    intro a ha b hb hab
    have h1 := hrs2 a ha
    have h2 := hrs2 b hb
    rw [hab, h2] at h1
    exact (Except.ok.inj h1).symm
  have hholds : ∀ g ∈ (onInstall cfg install w).world.caches, g.1 = cfg.CACHE_NAME →
      Cache.find g.2 request.url = some p.2 := by
    rw [hrs3, ← hpu]
    exact CacheStorage.foldl_putIn_holds cfg.CACHE_NAME rs _ hfun p hp
  have hkey : cfg.CACHE_NAME ∈ (onInstall cfg install w).world.caches.keys := by
    rw [hrs3, CacheStorage.keys_foldl_putIn]
    exact CacheStorage.mem_keys_openCache_self _ _
  -- the store after the activation
  have hkey2 : cfg.CACHE_NAME
      ∈ (onActivate cfg activate (onInstall cfg install w).world).world.caches.keys := by
    rw [hact]
    obtain ⟨g, hg, hgn⟩ := List.mem_map.1 hkey
    exact List.mem_map.2 ⟨g, List.mem_filter.2 ⟨hg, by simpa using hgn⟩, hgn⟩
  have hholds2 : ∀ g ∈ (onActivate cfg activate (onInstall cfg install w).world).world.caches,
      Cache.find g.2 request.url = some p.2 := by
    rw [hact]
    intro g hg
    obtain ⟨hg1, hg2⟩ := List.mem_filter.1 hg
    exact hholds g hg1 (by simpa using hg2)
  obtain ⟨c, hc, hcmem⟩ := CacheStorage.generation_of_mem_keys _ _ hkey2
  have hfind : (onActivate cfg activate (onInstall cfg install w).world).world.caches.find
      request.url = some p.2 :=
    CacheStorage.find_of_all _ _ _ (List.ne_nil_of_mem hcmem) hholds2
  refine ⟨?_, c, p.2, hc, hholds2 _ hcmem, hnet, ?_, ?_⟩
  · intro n hn
    rw [hact]
    exact CacheStorage.generation_filter_other _ _ _ hn
  · simp [onFetch, respondTask, catchDo, thenDo, cachesMatch, resolve, call, hget, hlookup, hfind]
  · simp [onFetch, respondTask, catchDo, thenDo, cachesMatch, resolve, call, hget, hlookup, hfind]

/-- C12, as amended: an agent named portfolio-v1.2 installs successfully on any
store (one that holds portfolio-v1.1 included) and then activates with
keys() and the deletions it asks for not refused. Afterwards no generation
portfolio-v1.1 exists, and a GET request for any manifest URL whose lookup
answers is fulfilled, without a network fetch, with the entry of the
generation portfolio-v1.2, which is the response fetched at install. -/
theorem upgrade_serves_new_generation (install activate serve : Host) (w : World)
    (request : Request)
    (hinstall : (onInstall bumped install w).waitUntil = .fulfilled ())
    (hkeys : activate.keysFault = none)
    (hdelete : ∀ n ∈ (onInstall bumped install w).world.caches.keys,
      n ≠ "portfolio-v1.2" → activate.deleteFault n = none)
    (hget : request.method = "GET")
    (hurl : request.url ∈ bumped.urlsToCache)
    (hlookup : serve.matchFault request.url = none) :
    (onActivate bumped activate (onInstall bumped install w).world).world.caches.generation
      "portfolio-v1.1" = none ∧
    ∃ c r,
      (onActivate bumped activate (onInstall bumped install w).world).world.caches.generation
        "portfolio-v1.2" = some c ∧
      Cache.find c request.url = some r ∧
      install.network request.url = .ok r ∧
      (onFetch bumped serve request
        (onActivate bumped activate (onInstall bumped install w).world).world).respondWith
        = some (.fulfilled (some r)) ∧
      (onFetch bumped serve request
        (onActivate bumped activate (onInstall bumped install w).world).world).world.calls
        = (onActivate bumped activate (onInstall bumped install w).world).world.calls
          ++ [Effect.cachesMatch request.url] := by
  have h := upgrade_then_fetch bumped install activate serve w request hinstall hkeys hdelete
    hget hurl hlookup
  exact ⟨h.1 "portfolio-v1.1" (by decide), h.2⟩

theorem upgrade_serves_new_generation_witness :
    installed.caches.generation "portfolio-v1.1" = some [("/index.html", page)] ∧
    (onInstall bumped (online fresh) installed).waitUntil = .fulfilled () ∧
    (⟨"GET", "/index.html", "navigate"⟩ : Request).method = "GET" ∧
    "/index.html" ∈ bumped.urlsToCache ∧
    (onActivate bumped offline (onInstall bumped (online fresh) installed).world).world.caches.generation
      "portfolio-v1.1" = none ∧
    ∃ c r,
      (onActivate bumped offline (onInstall bumped (online fresh) installed).world).world.caches.generation
        "portfolio-v1.2" = some c ∧
      Cache.find c "/index.html" = some r ∧
      (online fresh).network "/index.html" = .ok r ∧
      (onFetch bumped offline ⟨"GET", "/index.html", "navigate"⟩
        (onActivate bumped offline (onInstall bumped (online fresh) installed).world).world).respondWith
        = some (.fulfilled (some r)) ∧
      (onFetch bumped offline ⟨"GET", "/index.html", "navigate"⟩
        (onActivate bumped offline (onInstall bumped (online fresh) installed).world).world).world.calls
        = (onActivate bumped offline (onInstall bumped (online fresh) installed).world).world.calls
          ++ [Effect.cachesMatch "/index.html"] :=
  ⟨by decide, by decide, rfl, by decide,
    upgrade_serves_new_generation (online fresh) offline offline installed
      ⟨"GET", "/index.html", "navigate"⟩ (by decide) rfl (fun _ _ _ => rfl) rfl (by decide) rfl⟩

/-- C12 as stated fails: the agent portfolio-v1.2 installs successfully and
activates, the deletion of portfolio-v1.1 being refused. The activation
succeeds, the generation portfolio-v1.1 still exists, and a GET request for
/index.html is answered with the copy of portfolio-v1.1, found first by the
lookup over the whole store, not with the copy of portfolio-v1.2. -/
theorem upgrade_old_generation_survives :
    (onInstall bumped (online fresh) installed).waitUntil = .fulfilled () ∧
    (onActivate bumped stuck (onInstall bumped (online fresh) installed).world).waitUntil
      = .fulfilled () ∧
    (onActivate bumped stuck (onInstall bumped (online fresh) installed).world).world.caches.generation
      "portfolio-v1.1" = some [("/index.html", page)] ∧
    ((onActivate bumped stuck (onInstall bumped (online fresh) installed).world).world.caches.generation
      "portfolio-v1.2").bind (fun c => Cache.find c "/index.html") = some fresh ∧
    (onFetch bumped offline ⟨"GET", "/index.html", "navigate"⟩
      (onActivate bumped stuck (onInstall bumped (online fresh) installed).world).world).respondWith
      = some (.fulfilled (some page)) ∧
    page ≠ fresh := by
  refine ⟨by decide, by decide, by decide, by decide, by decide, by decide⟩

end ServiceWorker

namespace PortfolioApp

/-! ## The rules of `validateField` -/

theorem check_of_minLength (field : Field) (m : Nat) (text : String) (hm : m ≠ 0)
    (hvalue : trim field.value.toList ≠ [])
    (hrule : validationRules field.name
      = some { minLength := some m, pattern := none, message := text }) :
    check field = if length (trim field.value.toList) < m then (false, text) else (true, "") := by
  have hd : trim field.value.data ≠ [] := hvalue
  by_cases hlt : length (trim field.value.data) < m <;>
    simp [check, hd, hrule, hm, hlt]

theorem isValid_of_minLength (field : Field) (m : Nat) (text : String) (hm : m ≠ 0)
    (hvalue : trim field.value.toList ≠ [])
    (hrule : validationRules field.name
      = some { minLength := some m, pattern := none, message := text }) :
    (validateField field).isValid = true ↔ m ≤ length (trim field.value.toList) := by
  have h := check_of_minLength field m text hm hvalue hrule
  unfold validateField
  by_cases hlt : length (trim field.value.toList) < m
  · simp only [h, if_pos hlt]
    exact ⟨fun h0 => absurd h0 Bool.false_ne_true, fun h0 => by omega⟩
  · simp only [h, if_neg hlt]
    exact ⟨fun _ => by omega, fun _ => trivial⟩

/-- C16: validateField looks at emptiness first: a field whose trimmed value is
empty is invalid with the message 'This field is required', whatever its
name. For a non-empty trimmed value, a field named name, subject or message
is valid exactly when the trimmed length is at least 2, 5 or 10, and a field
whose name has no rule (none of name, email, subject, message) is valid. -/
theorem validateField_rules (field : Field) :
    (trim field.value.toList = [] →
      (validateField field).isValid = false ∧
      (validateField field).errorMessage = "This field is required" ∧
      (validateField field).shown = some "This field is required") ∧
    (trim field.value.toList ≠ [] →
      (field.name = "name" →
        ((validateField field).isValid = true ↔ 2 ≤ length (trim field.value.toList))) ∧
      (field.name = "subject" →
        ((validateField field).isValid = true ↔ 5 ≤ length (trim field.value.toList))) ∧
      (field.name = "message" →
        ((validateField field).isValid = true ↔ 10 ≤ length (trim field.value.toList))) ∧
      (field.name ∉ ["name", "email", "subject", "message"] →
        (validateField field).isValid = true)) := by
  constructor
  · intro hempty
    have hd : trim field.value.data = [] := hempty
    simp [validateField, check, hd]
  · intro hvalue
    refine ⟨fun hname => ?_, fun hname => ?_, fun hname => ?_, fun hname => ?_⟩
    · exact isValid_of_minLength field 2 "Name must be at least 2 characters long" (by decide) hvalue
        (by simp [validationRules, hname])
    · exact isValid_of_minLength field 5 "Subject must be at least 5 characters long" (by decide) hvalue
        (by simp [validationRules, hname])
    · exact isValid_of_minLength field 10 "Message must be at least 10 characters long" (by decide) hvalue
        (by simp [validationRules, hname])
    · have hd : trim field.value.data ≠ [] := hvalue
      simp only [List.mem_cons, List.mem_singleton, List.not_mem_nil, or_false, not_or] at hname
      obtain ⟨h1, h2, h3, h4⟩ := hname
      simp [validateField, check, hd, validationRules, h1, h2, h3, h4]

theorem validateField_rules_witness :
    trim (⟨"  \t", "email"⟩ : Field).value.toList = [] ∧
    (validateField ⟨"  \t", "email"⟩).isValid = false ∧
    (validateField ⟨"  \t", "email"⟩).errorMessage = "This field is required" ∧
    trim (⟨" Al ", "name"⟩ : Field).value.toList ≠ [] ∧
    length (trim (⟨" Al ", "name"⟩ : Field).value.toList) = 2 ∧
    (validateField ⟨" Al ", "name"⟩).isValid = true ∧
    (validateField ⟨" A ", "name"⟩).isValid = false ∧
    (validateField ⟨"x", "phone"⟩).isValid = true :=
  ⟨by decide, ((validateField_rules ⟨"  \t", "email"⟩).1 (by decide)).1,
    ((validateField_rules ⟨"  \t", "email"⟩).1 (by decide)).2.1,
    by decide, by decide,
    (((validateField_rules ⟨" Al ", "name"⟩).2 (by decide)).1 rfl).2 (by decide),
    by decide,
    ((validateField_rules ⟨"x", "phone"⟩).2 (by decide)).2.2.2 (by decide)⟩

end PortfolioApp
